import Mathlib

/-!
Verification development for the FightPoverty backend (Python/FastAPI over Redis).

Shallow embedding of the data model, the Redis-backed repositories
(src/db/repositories.py), the transaction engine
(src/services/transaction_service.py) and the allocation endpoint
(src/routers/allocations.py).

Modelling conventions:
- Redis hashes holding entity records are modelled as `Nat → Option Entity`
  maps (UUID keys modelled as `Nat`); string-index keys (`homeless:qr:{code}`,
  `user:username:{name}`, `config:{key}`) as `String → Option _` maps; Redis
  sets as boolean membership maps; the per-beneficiary lock key
  (`lock:homeless:{id}`) as `Nat → Bool`.
- Timestamp fields (`created_at`, `updated_at`, `last_login_at`) and the
  sorted-set / daily-bucket history indexes are orthogonal to every property
  proved here and are omitted from the record types; each mutating repository
  call instead appends an `Event` to an explicit write trace (`DB.events`) so
  that the order of Redis writes is observable.
- `uuid4()` and the random QR generator are modelled by passing the generated
  identifier as an explicit parameter.
- Python exceptions become `Except` values.  The `AttributeError` that Python
  raises when an attribute of `None` is read is modelled by the
  `PyError.attributeError` constructor.
-/

/-- Lifecycle status (`Status` in src/db/models.py). -/
inductive Status where
  | active
  | inactive
  | suspended
  deriving Repr, DecidableEq

/-- User roles (`UserRole` in src/db/models.py). -/
inductive UserRole where
  | system_admin
  | ngo_admin
  | ngo_partner
  | store
  | homeless
  | association_admin
  | association_partner
  deriving Repr, DecidableEq

/-- Transaction status (`TransactionStatus` in src/db/models.py). -/
inductive TransactionStatus where
  | completed
  | failed
  | cancelled
  deriving Repr, DecidableEq

/-- `HomelessPerson` record (src/db/models.py); optional contact fields and
timestamps omitted (not read by any operation modelled here). -/
structure HomelessPerson where
  id : Nat
  qr_code : String
  id_number : String
  name : String
  balance : Int
  status : Status
  deriving Repr, DecidableEq

/-- `Store` record (src/db/models.py); metadata fields and timestamps
omitted. -/
structure Store where
  id : Nat
  qr_code : String
  name : String
  total_income : Int
  status : Status
  deriving Repr, DecidableEq

/-- `Product` record (src/db/models.py); description/category and timestamps
omitted. -/
structure Product where
  id : Nat
  store_id : Nat
  name : String
  points : Int
  status : Status
  deriving Repr, DecidableEq

/-- `User` record (src/db/models.py); only the fields that
`UserRepository.create`/`delete` read are kept. -/
structure User where
  id : Nat
  username : String
  role : UserRole
  status : Status
  association_id : Option Nat
  deriving Repr, DecidableEq

/-- Immutable `Transaction` ledger record (src/db/models.py), minus
`created_at`. -/
structure Transaction where
  id : Nat
  homeless_id : Nat
  homeless_qr_code : String
  store_id : Nat
  store_qr_code : String
  product_id : Option Nat
  product_name : String
  amount : Int
  balance_before : Int
  balance_after : Int
  status : TransactionStatus
  deriving Repr, DecidableEq

/-- Immutable `Allocation` ledger record (src/db/models.py), minus
`created_at`. -/
structure Allocation where
  id : Nat
  homeless_id : Nat
  admin_id : Nat
  amount : Int
  balance_before : Int
  balance_after : Int
  notes : Option String
  deriving Repr, DecidableEq

/-- Request body for `create_transaction` (`TransactionCreate` in
src/db/models.py). -/
structure TransactionCreate where
  homeless_qr_code : String
  store_qr_code : String
  product_id : Option Nat
  product_name : String
  amount : Int
  deriving Repr, DecidableEq

/-- Request body for the allocation endpoint (`AllocationCreate` in
src/db/models.py). -/
structure AllocationCreate where
  homeless_id : Nat
  amount : Int
  notes : Option String
  deriving Repr, DecidableEq

/-- One Redis write performed by a repository, recorded in `DB.events` so the
order of writes is observable.  `balanceUpdate` is the `hset balance` of
`HomelessPersonRepository.update_balance`, `incomeIncr` the `hincrby` of
`StoreRepository.update_income`, `txRecord` / `allocRecord` the primary-record
writes of `TransactionRepository.create` / `AllocationRepository.create`. -/
inductive Event where
  | balanceUpdate (homeless_id : Nat) (new_balance : Int)
  | incomeIncr (store_id : Nat) (amount : Int)
  | txRecord (tx_id : Nat)
  | allocRecord (allocation_id : Nat)
  deriving Repr, DecidableEq

/-- The shared Redis store: one field per logical key family listed in the
repository docstrings of src/db/repositories.py. -/
structure DB where
  homeless : Nat → Option HomelessPerson
  homelessQrIndex : String → Option Nat
  stores : Nat → Option Store
  storeQrIndex : String → Option Nat
  products : Nat → Option Product
  users : Nat → Option User
  usernameIndex : String → Option Nat
  roleUsers : UserRole → Nat → Bool
  allUsers : Nat → Bool
  associationUsers : Nat → Nat → Bool
  transactions : Nat → Option Transaction
  allocations : Nat → Option Allocation
  config : String → Option String
  locks : Nat → Bool
  events : List Event

namespace HomelessPersonRepository

/-- `HomelessPersonRepository.get_by_id`: `hgetall homeless:{id}`. -/
def get_by_id (db : DB) (homeless_id : Nat) : Option HomelessPerson :=
  db.homeless homeless_id

/-- `HomelessPersonRepository.get_by_qr_code`: read the `homeless:qr:{code}`
index, then the primary record. -/
def get_by_qr_code (db : DB) (qr_code : String) : Option HomelessPerson :=
  match db.homelessQrIndex qr_code with
  | none => none
  | some homeless_id => get_by_id db homeless_id

/-- `HomelessPersonRepository.update_balance`: `exists` check, then
`hset balance` (the `updated_at` write is omitted with the timestamps). -/
def update_balance (db : DB) (homeless_id : Nat) (new_balance : Int) :
    DB × Bool :=
  match db.homeless homeless_id with
  | none => (db, false)
  | some h =>
      ({ db with
          homeless := fun j =>
            if j = homeless_id then some { h with balance := new_balance }
            else db.homeless j,
          events := db.events ++ [Event.balanceUpdate homeless_id new_balance] },
        true)

/-- `HomelessPersonRepository.reissue_qr_code`: read the person, delete the
old `homeless:qr:{old}` index key, `hset qr_code` to the freshly generated
code, create the new index entry.  The generated code is passed in as
`new_qr_code` (the source calls the random `generate_homeless_qr_code`). -/
def reissue_qr_code (db : DB) (homeless_id : Nat) (new_qr_code : String) :
    DB × Option String :=
  match get_by_id db homeless_id with
  | none => (db, none)
  | some h =>
      let db1 : DB :=
        { db with
            homelessQrIndex := fun c =>
              if c = h.qr_code then none else db.homelessQrIndex c }
      let db2 : DB :=
        { db1 with
            homeless := fun j =>
              if j = homeless_id then some { h with qr_code := new_qr_code }
              else db1.homeless j }
      let db3 : DB :=
        { db2 with
            homelessQrIndex := fun c =>
              if c = new_qr_code then some homeless_id
              else db2.homelessQrIndex c }
      (db3, some new_qr_code)

/-- `HomelessPersonRepository.acquire_lock`: `SET lock:homeless:{id} NX`
(the expiry is a crash-safety net and is not modelled: no clock). -/
def acquire_lock (db : DB) (homeless_id : Nat) : DB × Bool :=
  if db.locks homeless_id then (db, false)
  else
    ({ db with
        locks := fun j => if j = homeless_id then true else db.locks j },
      true)

/-- `HomelessPersonRepository.release_lock`: `DEL lock:homeless:{id}`. -/
def release_lock (db : DB) (homeless_id : Nat) : DB :=
  { db with locks := fun j => if j = homeless_id then false else db.locks j }

end HomelessPersonRepository

namespace StoreRepository

/-- `StoreRepository.get_by_id`. -/
def get_by_id (db : DB) (store_id : Nat) : Option Store :=
  db.stores store_id

/-- `StoreRepository.get_by_qr_code`: `store:qr:{code}` index, then primary. -/
def get_by_qr_code (db : DB) (qr_code : String) : Option Store :=
  match db.storeQrIndex qr_code with
  | none => none
  | some store_id => get_by_id db store_id

/-- `StoreRepository.update_income`: `exists` check then
`hincrby total_income amount`. -/
def update_income (db : DB) (store_id : Nat) (amount : Int) : DB × Bool :=
  match db.stores store_id with
  | none => (db, false)
  | some s =>
      ({ db with
          stores := fun j =>
            if j = store_id
            then some { s with total_income := s.total_income + amount }
            else db.stores j,
          events := db.events ++ [Event.incomeIncr store_id amount] },
        true)

end StoreRepository

namespace ProductRepository

/-- `ProductRepository.get_by_id`. -/
def get_by_id (db : DB) (product_id : Nat) : Option Product :=
  db.products product_id

end ProductRepository

namespace TransactionRepository

/-- `TransactionRepository.create`: build the record, `hset transaction:{id}`
(the sorted-set and daily-bucket index writes carry no data beyond the id and
timestamp and are omitted with the clock). -/
def create (db : DB) (tx_id : Nat) (homeless_id : Nat)
    (homeless_qr_code : String) (store_id : Nat) (store_qr_code : String)
    (product_name : String) (amount : Int) (balance_before : Int)
    (balance_after : Int) (status : TransactionStatus)
    (product_id : Option Nat) : DB × Transaction :=
  let tx : Transaction :=
    { id := tx_id
      homeless_id := homeless_id
      homeless_qr_code := homeless_qr_code
      store_id := store_id
      store_qr_code := store_qr_code
      product_id := product_id
      product_name := product_name
      amount := amount
      balance_before := balance_before
      balance_after := balance_after
      status := status }
  ({ db with
      transactions := fun j => if j = tx_id then some tx else db.transactions j,
      events := db.events ++ [Event.txRecord tx_id] },
    tx)

end TransactionRepository

namespace AllocationRepository

/-- `AllocationRepository.create`: build the record, `hset allocation:{id}`
(history-index writes omitted as for transactions). -/
def create (db : DB) (allocation_id : Nat) (homeless_id : Nat)
    (admin_id : Nat) (amount : Int) (balance_before : Int)
    (balance_after : Int) (notes : Option String) : DB × Allocation :=
  let alloc : Allocation :=
    { id := allocation_id
      homeless_id := homeless_id
      admin_id := admin_id
      amount := amount
      balance_before := balance_before
      balance_after := balance_after
      notes := notes }
  ({ db with
      allocations := fun j =>
        if j = allocation_id then some alloc else db.allocations j,
      events := db.events ++ [Event.allocRecord allocation_id] },
    alloc)

end AllocationRepository

/-- Decimal digit value of a character, used to model the Python `int()`
builtin. -/
def charDigit (c : Char) : Option Nat :=
  if ('0').toNat ≤ c.toNat ∧ c.toNat ≤ ('9').toNat then some (c.toNat - ('0').toNat)
  else none

/-- Accumulator loop of the decimal parser. -/
def parseNatAux : List Char → Nat → Option Nat
  | [], acc => some acc
  | c :: cs, acc =>
      match charDigit c with
      | none => none
      | some d => parseNatAux cs (acc * 10 + d)

/-- The Python `int(str)` builtin restricted to optionally-signed decimal
strings (the only forms stored by this system); any other string raises
`ValueError`, modelled as `none`. -/
def pyInt (s : String) : Option Int :=
  match s.data with
  | [] => none
  | c :: cs =>
      if c = ('-') then
        match cs with
        | [] => none
        | _ => (parseNatAux cs 0).map (fun n => -(n : Int))
      else (parseNatAux s.data 0).map (fun n => (n : Int))

namespace SystemConfigRepository

/-- `SystemConfigRepository.DEFAULT_CONFIGS` (values only). -/
def defaultConfigs (config_key : String) : Option String :=
  if config_key = "max_balance_limit" then some ("10000")
  else if config_key = "max_allocation_limit" then some ("1000")
  else if config_key = "default_page_size" then some ("20")
  else none

/-- `SystemConfigRepository.get` restricted to the stored `value` field: the
stored hash if present, else the default. -/
def get (db : DB) (config_key : String) : Option String :=
  match db.config config_key with
  | some v => some v
  | none => defaultConfigs config_key

/-- `SystemConfigRepository.get_int`: `int(config.value)` with the `default`
fallback on a missing config or unparsable value. -/
def get_int (db : DB) (config_key : String) (default : Int) : Int :=
  match get db config_key with
  | some v =>
      match pyInt v with
      | some n => n
      | none => default
  | none => default

end SystemConfigRepository

namespace UserRepository

/-- `UserRepository.get_by_id`. -/
def get_by_id (db : DB) (user_id : Nat) : Option User :=
  db.users user_id

/-- `UserRepository.save`: `hset user:{id}` plus the
`user:username:{username}` index entry. -/
def save (db : DB) (user : User) : DB :=
  { db with
      users := fun j => if j = user.id then some user else db.users j,
      usernameIndex := fun n =>
        if n = user.username then some user.id else db.usernameIndex n }

/-- `UserRepository.create`: `save`, then `sadd` into the role set, the
all-users set and (when `association_id` is set) the association member
set. -/
def create (db : DB) (user : User) : DB :=
  let db1 := save db user
  let db2 : DB :=
    { db1 with
        roleUsers := fun r j =>
          if r = user.role ∧ j = user.id then true else db1.roleUsers r j }
  let db3 : DB :=
    { db2 with
        allUsers := fun j => if j = user.id then true else db2.allUsers j }
  match user.association_id with
  | none => db3
  | some a =>
      { db3 with
          associationUsers := fun b j =>
            if b = a ∧ j = user.id then true else db3.associationUsers b j }

/-- `UserRepository.delete`: read the user, delete the primary key and the
username index entry, `srem` from the role set and the all-users set.  The
source performs no `srem` on the association member set. -/
def delete (db : DB) (user_id : Nat) : DB :=
  match get_by_id db user_id with
  | none => db
  | some u =>
      let db1 : DB :=
        { db with users := fun j => if j = user_id then none else db.users j }
      let db2 : DB :=
        { db1 with
            usernameIndex := fun n =>
              if n = u.username then none else db1.usernameIndex n }
      let db3 : DB :=
        { db2 with
            roleUsers := fun r j =>
              if r = u.role ∧ j = user_id then false else db2.roleUsers r j }
      { db3 with
          allUsers := fun j => if j = user_id then false else db3.allUsers j }

end UserRepository

/-! ## Transaction engine (src/services/transaction_service.py) -/

/-- Typed domain errors of the transaction service (the `TransactionError`
subclasses), each carrying its `details` payload fields. -/
inductive TxError where
  | homelessNotFound (qr_code : String)
  | storeNotFound (qr_code : String)
  | homelessInactive (homeless_id : Nat)
  | storeInactive (store_id : Nat)
  | productInactive (product_id : Nat)
  | insufficientBalance (current_balance : Int) (required : Int)
  | transactionLocked (homeless_id : Nat)
  deriving Repr, DecidableEq

/-- What a call can raise: a typed domain error, or the Python
`AttributeError` that escapes when an attribute of `None` is read. -/
inductive PyError where
  | txError (e : TxError)
  | attributeError
  deriving Repr, DecidableEq

namespace TransactionService

/-- Step 3 of `create_transaction`: the product-status check.  Returns the
error to raise, if any (a missing product is tolerated). -/
def product_check (db : DB) (data : TransactionCreate) : Option TxError :=
  match data.product_id with
  | none => none
  | some pid =>
      match ProductRepository.get_by_id db pid with
      | none => none
      | some p =>
          if p.status ≠ Status.active then some (TxError.productInactive pid)
          else none

/-- `TransactionService.create_transaction`, lines 156-228 of
src/services/transaction_service.py, translated step by step.

`tx_id` stands for the `uuid4()` call.  `interfere` is the shallow embedding
of the concurrency the source defends against: every repository call is
blocking I/O against the shared Redis store, so other actors can write to the
store while this call is suspended.  The source re-reads the beneficiary
after acquiring the lock precisely because the balance "may have changed
between steps 1 and 4" (its own comment); `interfere` is applied at that
suspension point, between `acquire_lock` and the locked re-read.  The purely
sequential execution is `interfere = fun s => s` (`create_transaction_seq`).

The `try/finally` of the source is modelled exactly: the `finally` block
evaluates `homeless.id` on the *current* binding of `homeless`; on the branch
where the locked re-read returned `None`, that binding is `None`, so the
`finally` itself raises `AttributeError` and `release_lock` is never
executed. -/
def create_transaction (tx_id : Nat) (interfere : DB → DB) (db : DB)
    (data : TransactionCreate) : DB × Except PyError Transaction :=
  match HomelessPersonRepository.get_by_qr_code db data.homeless_qr_code with
  | none => (db, Except.error (PyError.txError (TxError.homelessNotFound data.homeless_qr_code)))
  | some homeless =>
    if homeless.status ≠ Status.active then
      (db, Except.error (PyError.txError (TxError.homelessInactive homeless.id)))
    else
      match StoreRepository.get_by_qr_code db data.store_qr_code with
      | none => (db, Except.error (PyError.txError (TxError.storeNotFound data.store_qr_code)))
      | some store =>
        if store.status ≠ Status.active then
          (db, Except.error (PyError.txError (TxError.storeInactive store.id)))
        else
          match product_check db data with
          | some e => (db, Except.error (PyError.txError e))
          | none =>
            let acq := HomelessPersonRepository.acquire_lock db homeless.id
            if ¬ acq.2 then
              (acq.1, Except.error (PyError.txError (TxError.transactionLocked homeless.id)))
            else
              let db2 := interfere acq.1
              match HomelessPersonRepository.get_by_id db2 homeless.id with
              | none =>
                  -- raise HomelessNotFoundError with `homeless` rebound to
                  -- None; the finally block evaluates `None.id`, raising
                  -- AttributeError; the lock is NOT released.
                  (db2, Except.error PyError.attributeError)
              | some homeless2 =>
                let balance_before := homeless2.balance
                let balance_after := balance_before - data.amount
                if balance_after < 0 then
                  (HomelessPersonRepository.release_lock db2 homeless2.id,
                    Except.error (PyError.txError
                      (TxError.insufficientBalance balance_before data.amount)))
                else
                  let upd := HomelessPersonRepository.update_balance db2 homeless2.id balance_after
                  let inc := StoreRepository.update_income upd.1 store.id data.amount
                  let rec0 := TransactionRepository.create inc.1 tx_id homeless2.id
                    data.homeless_qr_code store.id data.store_qr_code
                    data.product_name data.amount balance_before balance_after
                    TransactionStatus.completed data.product_id
                  (HomelessPersonRepository.release_lock rec0.1 homeless2.id,
                    Except.ok rec0.2)

/-- `create_transaction` as the single sequential call the HTTP layer makes
(no interference from other actors). -/
def create_transaction_seq (tx_id : Nat) (db : DB) (data : TransactionCreate) :
    DB × Except PyError Transaction :=
  create_transaction tx_id (fun s => s) db data

end TransactionService

/-! ## Allocation endpoint (src/routers/allocations.py, `create_allocation`) -/

/-- Typed outcomes of the allocation endpoint, with the `details` payloads of
the JSON error bodies. -/
inductive AllocError where
  | forbidden
  | homelessNotFound
  | homelessInactive
  | allocationLimitExceeded (max_limit : Int) (requested : Int)
  | balanceLimitExceeded (current_balance : Int) (requested : Int) (max_limit : Int)
  deriving Repr, DecidableEq

namespace Allocations

/-- Role gate of `create_allocation`: system_admin, ngo_admin, ngo_partner. -/
def roleAllowed (role : UserRole) : Bool :=
  role = UserRole.system_admin ∨ role = UserRole.ngo_admin ∨
    role = UserRole.ngo_partner

/-- `create_allocation` from src/routers/allocations.py, translated step by
step.  `allocation_id` stands for the `uuid4()` call; `role` and `admin_id`
come from the authenticated JWT payload.  Note the source creates the
Allocation record *before* it updates the beneficiary balance. -/
def create_allocation (allocation_id : Nat) (db : DB) (role : UserRole)
    (admin_id : Nat) (data : AllocationCreate) : DB × Except AllocError Allocation :=
  if ¬ roleAllowed role then (db, Except.error AllocError.forbidden)
  else
    match HomelessPersonRepository.get_by_id db data.homeless_id with
    | none => (db, Except.error AllocError.homelessNotFound)
    | some homeless =>
      if homeless.status ≠ Status.active then
        (db, Except.error AllocError.homelessInactive)
      else
        let max_allocation_limit :=
          SystemConfigRepository.get_int db ("max_allocation_limit") 1000
        let max_balance_limit :=
          SystemConfigRepository.get_int db ("max_balance_limit") 10000
        if data.amount > max_allocation_limit then
          (db, Except.error
            (AllocError.allocationLimitExceeded max_allocation_limit data.amount))
        else
          let balance_after := homeless.balance + data.amount
          if balance_after > max_balance_limit then
            (db, Except.error (AllocError.balanceLimitExceeded
              homeless.balance data.amount max_balance_limit))
          else
            let rec0 := AllocationRepository.create db allocation_id
              data.homeless_id admin_id data.amount homeless.balance
              balance_after data.notes
            let upd := HomelessPersonRepository.update_balance rec0.1
              data.homeless_id balance_after
            (upd.1, Except.ok rec0.2)

end Allocations

/-! ## Concrete test fixtures -/

/-- An empty store, used as the base of every concrete scenario. -/
def emptyDB : DB where
  homeless := fun _ => none
  homelessQrIndex := fun _ => none
  stores := fun _ => none
  storeQrIndex := fun _ => none
  products := fun _ => none
  users := fun _ => none
  usernameIndex := fun _ => none
  roleUsers := fun _ _ => false
  allUsers := fun _ => false
  associationUsers := fun _ _ => false
  transactions := fun _ => none
  allocations := fun _ => none
  config := fun _ => none
  locks := fun _ => false
  events := []

/-- A beneficiary with id 1 and the given balance. -/
def sampleHomeless (balance : Int) : HomelessPerson where
  id := 1
  qr_code := "HL_AAAA11112222"
  id_number := "A123456789"
  name := "Beneficiary One"
  balance := balance
  status := Status.active

/-- A store with id 2. -/
def sampleStore : Store where
  id := 2
  qr_code := "ST_BBBB33334444"
  name := "Store Two"
  total_income := 0
  status := Status.active

/-- State with beneficiary 1 (given balance), store 2, empty configs (so both
allocation limits fall back to their defaults) and a free lock. -/
def testDB (balance : Int) : DB :=
  { emptyDB with
      homeless := fun j => if j = 1 then some (sampleHomeless balance) else none,
      homelessQrIndex := fun c =>
        if c = "HL_AAAA11112222" then some 1 else none,
      stores := fun j => if j = 2 then some sampleStore else none,
      storeQrIndex := fun c =>
        if c = "ST_BBBB33334444" then some 2 else none }

/-- The transaction request used by the concrete scenarios. -/
def sampleRequest (amount : Int) : TransactionCreate where
  homeless_qr_code := "HL_AAAA11112222"
  store_qr_code := "ST_BBBB33334444"
  product_id := none
  product_name := "Lunch Box"
  amount := amount

/-! ## C5 / C6: allocation limit checks -/

/-- C5: an allocate call on an existing active beneficiary whose amount
exceeds the configured `max_allocation_limit` (1000 when the config key is
unset, via `get_int`) is rejected with `AllocationLimitExceeded` carrying
`{max_limit, requested}`, and the state — in particular the beneficiary's
balance — is unchanged. -/
theorem allocation_limit_exceeded_rejected
    (allocation_id : Nat) (db : DB) (role : UserRole) (admin_id : Nat)
    (data : AllocationCreate) (h : HomelessPerson)
    (hrole : Allocations.roleAllowed role = true)
    (hget : HomelessPersonRepository.get_by_id db data.homeless_id = some h)
    (hactive : h.status = Status.active)
    (hover : data.amount >
      SystemConfigRepository.get_int db ("max_allocation_limit") 1000) :
    Allocations.create_allocation allocation_id db role admin_id data =
      (db, Except.error (AllocError.allocationLimitExceeded
        (SystemConfigRepository.get_int db ("max_allocation_limit") 1000)
        data.amount)) := by
  unfold Allocations.create_allocation
  simp only [hrole, hget, hactive]
  simp [hover, hactive]

/-- Witness for C5: scenario D of the spec — balance 100, request 1500 with
the config unset, so the limit is the default 1000. -/
theorem allocation_limit_exceeded_rejected_witness :
    Allocations.roleAllowed UserRole.system_admin = true ∧
    Allocations.create_allocation 7 (testDB 100) UserRole.system_admin 9
        { homeless_id := 1, amount := 1500, notes := none } =
      ((testDB 100),
        Except.error (AllocError.allocationLimitExceeded 1000 1500)) := by
  refine ⟨by decide, ?_⟩
  have hlim : SystemConfigRepository.get_int (testDB 100)
      ("max_allocation_limit") 1000 = 1000 := by decide
  have := allocation_limit_exceeded_rejected 7 (testDB 100)
    UserRole.system_admin 9 { homeless_id := 1, amount := 1500, notes := none }
    (sampleHomeless 100) (by decide) (by decide) (by decide)
    (by rw [hlim]; decide)
  rw [hlim] at this
  exact this

/-- C6: an allocate call on an existing active beneficiary whose amount is
within the single-allocation limit, but where `balance + amount` exceeds the
configured `max_balance_limit` (10000 when unset), is rejected with
`BalanceLimitExceeded` carrying `{current_balance, requested, max_limit}`,
and the state — in particular the beneficiary's balance — is unchanged. -/
theorem balance_limit_exceeded_rejected
    (allocation_id : Nat) (db : DB) (role : UserRole) (admin_id : Nat)
    (data : AllocationCreate) (h : HomelessPerson)
    (hrole : Allocations.roleAllowed role = true)
    (hget : HomelessPersonRepository.get_by_id db data.homeless_id = some h)
    (hactive : h.status = Status.active)
    (hwithin : ¬ data.amount >
      SystemConfigRepository.get_int db ("max_allocation_limit") 1000)
    (hover : h.balance + data.amount >
      SystemConfigRepository.get_int db ("max_balance_limit") 10000) :
    Allocations.create_allocation allocation_id db role admin_id data =
      (db, Except.error (AllocError.balanceLimitExceeded h.balance data.amount
        (SystemConfigRepository.get_int db ("max_balance_limit") 10000))) := by
  unfold Allocations.create_allocation
  simp only [hrole, hget, hactive]
  simp [hwithin, hover, hactive]

/-- Witness for C6: scenario E of the spec — balance 9500, request 1000 with
the configs unset, so the balance limit is the default 10000. -/
theorem balance_limit_exceeded_rejected_witness :
    Allocations.roleAllowed UserRole.ngo_admin = true ∧
    Allocations.create_allocation 7 (testDB 9500) UserRole.ngo_admin 9
        { homeless_id := 1, amount := 1000, notes := none } =
      ((testDB 9500),
        Except.error (AllocError.balanceLimitExceeded 9500 1000 10000)) := by
  refine ⟨by decide, ?_⟩
  have halloc : SystemConfigRepository.get_int (testDB 9500)
      ("max_allocation_limit") 1000 = 1000 := by decide
  have hbal : SystemConfigRepository.get_int (testDB 9500)
      ("max_balance_limit") 10000 = 10000 := by decide
  have := balance_limit_exceeded_rejected 7 (testDB 9500) UserRole.ngo_admin 9
    { homeless_id := 1, amount := 1000, notes := none }
    (sampleHomeless 9500) (by decide) (by decide) (by decide)
    (by rw [halloc]; decide) (by rw [hbal]; decide)
  rw [hbal] at this
  exact this

/-! ## C7: successful allocation — record contents and write order -/

/-- Decidable equality of call outcomes, so concrete runs can be checked by
`decide`. -/
instance exceptDecEq {e a : Type} [DecidableEq e] [DecidableEq a] :
    DecidableEq (Except e a)
  | Except.error e1, Except.error e2 =>
      if h : e1 = e2 then isTrue (by rw [h])
      else isFalse (by intro hc; cases hc; exact h rfl)
  | Except.error _, Except.ok _ => isFalse (by intro hc; cases hc)
  | Except.ok _, Except.error _ => isFalse (by intro hc; cases hc)
  | Except.ok a1, Except.ok a2 =>
      if h : a1 = a2 then isTrue (by rw [h])
      else isFalse (by intro hc; cases hc; exact h rfl)

/-- Recognizer for balance writes in the trace. -/
def isBalanceUpdateEvent : Event → Bool
  | Event.balanceUpdate _ _ => true
  | _ => false

/-- Recognizer for Allocation-record writes in the trace. -/
def isAllocRecordEvent : Event → Bool
  | Event.allocRecord _ => true
  | _ => false

/-- The write order claimed by the spec for `allocate`: some balance write
precedes some Allocation-record write. -/
def balance_persisted_before_record (es : List Event) : Prop :=
  ∃ i j : Fin es.length, (i : Nat) < (j : Nat) ∧
    isBalanceUpdateEvent (es.get i) = true ∧ isAllocRecordEvent (es.get j) = true

instance (es : List Event) : Decidable (balance_persisted_before_record es) := by
  unfold balance_persisted_before_record
  infer_instance

/-- The allocation request of the concrete C7 scenario: 30 points for
beneficiary 1. -/
def allocReq : AllocationCreate where
  homeless_id := 1
  amount := 30
  notes := none

/-- The concrete C7 run: beneficiary 1 with balance 20, allocating 30. -/
def allocOut : DB × Except AllocError Allocation :=
  Allocations.create_allocation 7 (testDB 20) UserRole.system_admin 9 allocReq

/-- Counterexample to C7 as stated: this successful allocate call emits its
two Redis writes in the order record-write then balance-write, so it is not
the case that the engine persists the new balance and THEN writes the
Allocation record. -/
theorem allocation_order_counterexample :
    allocOut.2 = Except.ok
      { id := 7, homeless_id := 1, admin_id := 9, amount := 30,
        balance_before := 20, balance_after := 50, notes := none } ∧
    allocOut.1.events = [Event.allocRecord 7, Event.balanceUpdate 1 50] ∧
    ¬ balance_persisted_before_record allocOut.1.events := by
  refine ⟨by decide, by decide, by decide⟩

/-- C7 (amended): on every successful allocate call the engine first writes
the immutable Allocation record — whose `balance_before` is the pre-call
balance and whose `balance_after` equals `balance_before + amount` — and then
persists the new balance `balance_before + amount` on the beneficiary (the
write trace is exactly record-write followed by balance-write). -/
theorem allocation_success_record_then_balance
    (allocation_id : Nat) (db db1 : DB) (role : UserRole) (admin_id : Nat)
    (data : AllocationCreate) (alloc : Allocation) (h : HomelessPerson)
    (hget : HomelessPersonRepository.get_by_id db data.homeless_id = some h)
    (hrun : Allocations.create_allocation allocation_id db role admin_id data =
      (db1, Except.ok alloc)) :
    alloc.balance_before = h.balance ∧
    alloc.balance_after = h.balance + data.amount ∧
    alloc.amount = data.amount ∧
    db1.allocations allocation_id = some alloc ∧
    (∃ h2, db1.homeless data.homeless_id = some h2 ∧
      h2.balance = h.balance + data.amount) ∧
    db1.events = db.events ++
      [Event.allocRecord allocation_id,
        Event.balanceUpdate data.homeless_id (h.balance + data.amount)] := by
  have hget2 : db.homeless data.homeless_id = some h := hget
  unfold Allocations.create_allocation at hrun
  split at hrun
  · simp at hrun
  · split at hrun
    · simp at hrun
    · rename_i homeless hhm
      rw [hget] at hhm
      cases hhm
      split at hrun
      · simp at hrun
      · by_cases hlim : data.amount >
          SystemConfigRepository.get_int db ("max_allocation_limit") 1000
        · simp [hlim] at hrun
        · by_cases hbal : h.balance + data.amount >
            SystemConfigRepository.get_int db ("max_balance_limit") 10000
          · simp [hlim, hbal] at hrun
          · simp only [hlim, hbal, if_false, ite_false] at hrun
            rw [Prod.mk.injEq] at hrun
            obtain ⟨hdb, halloc⟩ := hrun
            injection halloc with halloc
            subst halloc
            subst hdb
            simp only [AllocationRepository.create,
              HomelessPersonRepository.update_balance, hget2]
            refine ⟨by simp, by simp, by simp, by simp, ?_, by simp⟩
            exact ⟨{ h with balance := h.balance + data.amount }, by simp, rfl⟩

/-- Witness for the amended C7 theorem at the concrete scenario: balance 20,
allocation of 30, trace is record-write then balance-write. -/
theorem allocation_success_record_then_balance_witness :
    HomelessPersonRepository.get_by_id (testDB 20) 1 = some (sampleHomeless 20) ∧
    allocOut.1.events = (testDB 20).events ++
      [Event.allocRecord 7,
        Event.balanceUpdate 1 ((sampleHomeless 20).balance + 30)] := by
  have hok : allocOut.2 = Except.ok
      { id := 7, homeless_id := 1, admin_id := 9, amount := 30,
        balance_before := 20, balance_after := 50, notes := none } := by decide
  have hrun : Allocations.create_allocation 7 (testDB 20) UserRole.system_admin
      9 allocReq =
      (allocOut.1, Except.ok
        { id := 7, homeless_id := 1, admin_id := 9, amount := 30,
          balance_before := 20, balance_after := 50, notes := none }) :=
    Prod.ext_iff.mpr ⟨rfl, hok⟩
  have h := allocation_success_record_then_balance 7 (testDB 20) allocOut.1
    UserRole.system_admin 9 allocReq _ (sampleHomeless 20) (by decide) hrun
  exact ⟨by decide, h.2.2.2.2.2⟩

/-! ## C8: QR reissue preserves identity -/

/-- C8: for an existing beneficiary, after `reissue_qr_code` with a freshly
generated code (distinct from the old one — the generator guarantees
uniqueness in its namespace), the beneficiary's id is unchanged, the old QR
code no longer resolves to any beneficiary, and the new QR code resolves to
the same id. -/
theorem reissue_preserves_identity
    (db : DB) (homeless_id : Nat) (h : HomelessPerson) (new_qr : String)
    (hget : HomelessPersonRepository.get_by_id db homeless_id = some h)
    (hfresh : new_qr ≠ h.qr_code) :
    (HomelessPersonRepository.reissue_qr_code db homeless_id new_qr).2 =
      some new_qr ∧
    (∃ h2, HomelessPersonRepository.get_by_id
        (HomelessPersonRepository.reissue_qr_code db homeless_id new_qr).1
        homeless_id = some h2 ∧ h2.id = h.id ∧ h2.qr_code = new_qr) ∧
    HomelessPersonRepository.get_by_qr_code
      (HomelessPersonRepository.reissue_qr_code db homeless_id new_qr).1
      h.qr_code = none ∧
    (∃ h2, HomelessPersonRepository.get_by_qr_code
        (HomelessPersonRepository.reissue_qr_code db homeless_id new_qr).1
        new_qr = some h2 ∧ h2.id = h.id) := by
  have hfresh2 : h.qr_code ≠ new_qr := fun e => hfresh e.symm
  unfold HomelessPersonRepository.reissue_qr_code
  rw [hget]
  refine ⟨rfl,
    ⟨{ h with qr_code := new_qr }, by simp [HomelessPersonRepository.get_by_id],
      rfl, rfl⟩, ?_, ?_⟩
  · simp [HomelessPersonRepository.get_by_qr_code, hfresh2]
  · refine ⟨{ h with qr_code := new_qr }, ?_, rfl⟩
    simp [HomelessPersonRepository.get_by_qr_code,
      HomelessPersonRepository.get_by_id]

/-- Witness for C8: beneficiary 1 of the concrete store, reissued to a fresh
code. -/
theorem reissue_preserves_identity_witness :
    HomelessPersonRepository.get_by_qr_code
      (HomelessPersonRepository.reissue_qr_code (testDB 50) 1
        ("HL_NEW999888777")).1 (sampleHomeless 50).qr_code = none ∧
    (∃ h2, HomelessPersonRepository.get_by_qr_code
        (HomelessPersonRepository.reissue_qr_code (testDB 50) 1
          ("HL_NEW999888777")).1 ("HL_NEW999888777") = some h2 ∧
      h2.id = (sampleHomeless 50).id) := by
  have h := reissue_preserves_identity (testDB 50) 1 (sampleHomeless 50)
    ("HL_NEW999888777") (by decide) (by decide)
  exact ⟨h.2.2.1, h.2.2.2⟩

/-! ## C9: hard user deletion and its secondary indexes -/

/-- A partner user attached to association 7, used to exhibit the orphaned
association-membership entry. -/
def orphanUser : User where
  id := 42
  username := "assoc_partner_one"
  role := UserRole.association_partner
  status := Status.active
  association_id := some 7

/-- Counterexample to C9 as stated: create user 42 (which adds it to the
`association:7:users` member set) and hard-delete it; the primary record is
gone but the association member set still contains the deleted id — an
orphaned index pointer, because `UserRepository.delete` never touches that
set. -/
theorem user_delete_orphan_counterexample :
    (UserRepository.delete (UserRepository.create emptyDB orphanUser) 42).users
      42 = none ∧
    (UserRepository.delete (UserRepository.create emptyDB orphanUser)
      42).associationUsers 7 42 = true := by
  refine ⟨by decide, by decide⟩

/-- C9 (amended): for every existing user, `UserRepository.delete` removes the
primary record, the username index entry, the role-set entry and the all-users
set entry — but it leaves the association membership sets entirely unchanged,
so a user created with an `association_id` keeps an orphaned entry there. -/
theorem user_delete_removes_core_indexes
    (db : DB) (user_id : Nat) (u : User)
    (hget : UserRepository.get_by_id db user_id = some u) :
    (UserRepository.delete db user_id).users user_id = none ∧
    (UserRepository.delete db user_id).usernameIndex u.username = none ∧
    (UserRepository.delete db user_id).roleUsers u.role user_id = false ∧
    (UserRepository.delete db user_id).allUsers user_id = false ∧
    (UserRepository.delete db user_id).associationUsers =
      db.associationUsers := by
  unfold UserRepository.delete
  rw [hget]
  exact ⟨by simp, by simp, by simp, by simp, rfl⟩

/-- Witness for the amended C9 theorem at the concrete orphan scenario. -/
theorem user_delete_removes_core_indexes_witness :
    (UserRepository.delete (UserRepository.create emptyDB orphanUser)
      42).usernameIndex orphanUser.username = none ∧
    (UserRepository.delete (UserRepository.create emptyDB orphanUser)
      42).allUsers 42 = false := by
  have h := user_delete_removes_core_indexes
    (UserRepository.create emptyDB orphanUser) 42 orphanUser (by decide)
  exact ⟨h.2.1, h.2.2.2.1⟩

/-! ## Helper lemmas about which state components each repository call
touches -/

/-- `release_lock` only touches the lock key. -/
theorem release_lock_homeless (db : DB) (i : Nat) :
    (HomelessPersonRepository.release_lock db i).homeless = db.homeless := rfl

/-- `TransactionRepository.create` does not touch beneficiary records. -/
theorem tx_create_homeless (db : DB) (a b : Nat) (c : String) (d : Nat)
    (e f : String) (g i j : Int) (st : TransactionStatus) (p : Option Nat) :
    ((TransactionRepository.create db a b c d e f g i j st p).1).homeless =
      db.homeless := rfl

/-- `update_income` does not touch beneficiary records. -/
theorem update_income_homeless (db : DB) (i : Nat) (a : Int) :
    ((StoreRepository.update_income db i a).1).homeless = db.homeless := by
  unfold StoreRepository.update_income
  split <;> rfl

/-- `update_balance` writes the new balance at the given key when the record
exists. -/
theorem update_balance_homeless_self (db : DB) (i : Nat) (b : Int)
    (h : HomelessPerson) (hh : db.homeless i = some h) :
    ((HomelessPersonRepository.update_balance db i b).1).homeless i =
      some { h with balance := b } := by
  unfold HomelessPersonRepository.update_balance
  rw [hh]
  simp

/-! ## C4: lock release on every path after acquisition -/

/-- Interference that removes beneficiary 1's primary record from the store
while the transaction call is suspended between `acquire_lock` and the locked
re-read (e.g. an external deletion or key flush; the code has an explicit
branch for this re-read returning `None`). -/
def deleteBeneficiary : DB → DB := fun st =>
  { st with homeless := fun j => if j = 1 then none else st.homeless j }

/-- C4 evidence: if the beneficiary record vanishes between lock acquisition
and the locked re-read, the call ends with an `AttributeError` escaping from
the `finally` block (because `homeless` was rebound to `None` before
`HomelessNotFoundError` was raised, and the cleanup evaluates `homeless.id`)
and the lock key is STILL HELD afterwards: `release_lock` was never executed,
contradicting the guaranteed-cleanup contract.  The typed
`HomelessNotFoundError` is also replaced by the untyped fault. -/
theorem lock_leaked_on_vanished_beneficiary :
    (TransactionService.create_transaction 99 deleteBeneficiary (testDB 500)
      (sampleRequest 100)).2 = Except.error PyError.attributeError ∧
    (TransactionService.create_transaction 99 deleteBeneficiary (testDB 500)
      (sampleRequest 100)).1.locks 1 = true := by
  refine ⟨by decide, by decide⟩

/-! ## C1: the completed-Transaction invariant -/

/-- C1: every run of `create_transaction` that returns a Transaction returns
one with status `completed`, `balance_after = balance_before - amount`,
`balance_after ≥ 0`, where `balance_before` is the balance of the beneficiary
as re-read after lock acquisition; and (whenever the re-read record carries
its own key, as every record written by this system does) the persisted
balance after the call equals `balance_after`. -/
theorem transaction_completed_invariant
    (tx_id : Nat) (interfere : DB → DB) (db db1 : DB)
    (data : TransactionCreate) (tx : Transaction)
    (hrun : TransactionService.create_transaction tx_id interfere db data =
      (db1, Except.ok tx)) :
    tx.status = TransactionStatus.completed ∧
    tx.amount = data.amount ∧
    tx.balance_after = tx.balance_before - tx.amount ∧
    0 ≤ tx.balance_after ∧
    ∃ h h2,
      HomelessPersonRepository.get_by_qr_code db data.homeless_qr_code =
        some h ∧
      HomelessPersonRepository.get_by_id
        (interfere (HomelessPersonRepository.acquire_lock db h.id).1) h.id =
        some h2 ∧
      tx.balance_before = h2.balance ∧
      tx.homeless_id = h2.id ∧
      (h2.id = h.id →
        db1.homeless h.id = some { h2 with balance := tx.balance_after }) := by
  unfold TransactionService.create_transaction at hrun
  split at hrun
  · simp at hrun
  · rename_i h hlook
    split at hrun
    · simp at hrun
    · rename_i hactive
      split at hrun
      · simp at hrun
      · rename_i s hslook
        split at hrun
        · simp at hrun
        · rename_i hsactive
          split at hrun
          · simp at hrun
          · rename_i hprod
            by_cases hacq : (HomelessPersonRepository.acquire_lock db h.id).2 = true
            · simp only [hacq, not_true, if_false, ite_false] at hrun
              split at hrun
              · simp at hrun
              · rename_i h2 hre
                split at hrun
                · simp at hrun
                · rename_i hneg
                  rw [Prod.mk.injEq] at hrun
                  obtain ⟨hdb, htx⟩ := hrun
                  injection htx with htx
                  subst htx
                  subst hdb
                  refine ⟨rfl, rfl, rfl,
                    by dsimp only [TransactionRepository.create]; omega,
                    h, h2, hlook, hre, rfl, rfl, ?_⟩
                  intro hid
                  rw [release_lock_homeless, tx_create_homeless,
                    update_income_homeless, ← hid]
                  exact update_balance_homeless_self _ h2.id _ h2
                    (by rw [hid]; exact hre)
            · simp [hacq] at hrun

/-- The transaction record produced by the concrete scenario-A run (balance
500, amount 500). -/
def txA : Transaction where
  id := 99
  homeless_id := 1
  homeless_qr_code := "HL_AAAA11112222"
  store_id := 2
  store_qr_code := "ST_BBBB33334444"
  product_id := none
  product_name := "Lunch Box"
  amount := 500
  balance_before := 500
  balance_after := 0
  status := TransactionStatus.completed

/-- The concrete sequential scenario-A run. -/
def runA : DB × Except PyError Transaction :=
  TransactionService.create_transaction 99 (fun st => st) (testDB 500)
    (sampleRequest 500)

/-- Witness for C1: scenario A of the spec — balance 500, amount 500 —
succeeds with `balance_after = 0`, and the new balance is persisted. -/
theorem transaction_completed_invariant_witness :
    txA.status = TransactionStatus.completed ∧
    txA.amount = (sampleRequest 500).amount ∧
    txA.balance_after = txA.balance_before - txA.amount ∧
    0 ≤ txA.balance_after ∧
    ∃ h h2,
      HomelessPersonRepository.get_by_qr_code (testDB 500)
        (sampleRequest 500).homeless_qr_code = some h ∧
      HomelessPersonRepository.get_by_id
        (HomelessPersonRepository.acquire_lock (testDB 500) h.id).1 h.id =
        some h2 ∧
      txA.balance_before = h2.balance ∧
      txA.homeless_id = h2.id ∧
      (h2.id = h.id →
        runA.1.homeless h.id = some { h2 with balance := txA.balance_after }) :=
  transaction_completed_invariant 99 (fun st => st) (testDB 500) runA.1
    (sampleRequest 500) txA (Prod.ext_iff.mpr ⟨rfl, by decide⟩)

/-! ## C3: insufficient balance — typed error, state unchanged -/

/-- C3: whenever the beneficiary balance re-read under the lock is strictly
below the requested amount, `create_transaction` fails with
`InsufficientBalance` carrying `{current_balance, required}`, and no state is
mutated: beneficiary records, store records, the transaction ledger, the
write trace and even the lock key are exactly as before the call. -/
theorem transaction_insufficient_balance
    (tx_id : Nat) (db : DB) (data : TransactionCreate) (h : HomelessPerson)
    (s : Store)
    (hlook : HomelessPersonRepository.get_by_qr_code db data.homeless_qr_code =
      some h)
    (hactive : h.status = Status.active)
    (hslook : StoreRepository.get_by_qr_code db data.store_qr_code = some s)
    (hsactive : s.status = Status.active)
    (hprod : TransactionService.product_check db data = none)
    (hlock : db.locks h.id = false)
    (hself : db.homeless h.id = some h)
    (hinsuf : h.balance < data.amount) :
    (TransactionService.create_transaction_seq tx_id db data).2 =
      Except.error (PyError.txError
        (TxError.insufficientBalance h.balance data.amount)) ∧
    (TransactionService.create_transaction_seq tx_id db data).1.homeless =
      db.homeless ∧
    (TransactionService.create_transaction_seq tx_id db data).1.stores =
      db.stores ∧
    (TransactionService.create_transaction_seq tx_id db data).1.transactions =
      db.transactions ∧
    (TransactionService.create_transaction_seq tx_id db data).1.events =
      db.events ∧
    (TransactionService.create_transaction_seq tx_id db data).1.locks =
      db.locks := by
  have hacq : HomelessPersonRepository.acquire_lock db h.id =
      ({ db with locks := fun j => if j = h.id then true else db.locks j },
        true) := by
    unfold HomelessPersonRepository.acquire_lock
    rw [if_neg (by simp [hlock])]
  have hre : HomelessPersonRepository.get_by_id
      ({ db with locks := fun j => if j = h.id then true else db.locks j })
      h.id = some h := hself
  unfold TransactionService.create_transaction_seq
    TransactionService.create_transaction
  simp only [hlook]
  rw [if_neg (by simp [hactive])]
  simp only [hslook]
  rw [if_neg (by simp [hsactive])]
  simp only [hprod, hacq]
  rw [if_neg (by simp)]
  simp only [hre]
  rw [if_pos (by omega)]
  refine ⟨rfl, rfl, rfl, rfl, rfl, ?_⟩
  funext j
  by_cases hj : j = h.id
  · subst hj
    simp [HomelessPersonRepository.release_lock, hlock]
  · simp [HomelessPersonRepository.release_lock, hj]

/-- Witness for C3: scenario B of the spec — balance 100, amount 200 — fails
with `InsufficientBalance {current_balance: 100, required: 200}`, balance
unchanged. -/
theorem transaction_insufficient_balance_witness :
    (TransactionService.create_transaction_seq 99 (testDB 100)
      (sampleRequest 200)).2 =
      Except.error (PyError.txError (TxError.insufficientBalance 100 200)) ∧
    (TransactionService.create_transaction_seq 99 (testDB 100)
      (sampleRequest 200)).1.homeless = (testDB 100).homeless ∧
    (TransactionService.create_transaction_seq 99 (testDB 100)
      (sampleRequest 200)).1.stores = (testDB 100).stores := by
  have h := transaction_insufficient_balance 99 (testDB 100)
    (sampleRequest 200) (sampleHomeless 100) sampleStore (by decide) rfl
    (by decide) rfl (by decide) (by decide) (by decide) (by decide)
  exact ⟨h.1, h.2.1, h.2.2.1⟩

/-! ## C10: the locked re-read checks existence only, not status -/

/-- `release_lock` does not touch store records. -/
theorem release_lock_stores (db : DB) (i : Nat) :
    (HomelessPersonRepository.release_lock db i).stores = db.stores := rfl

/-- `release_lock` does not touch the transaction ledger. -/
theorem release_lock_transactions (db : DB) (i : Nat) :
    (HomelessPersonRepository.release_lock db i).transactions =
      db.transactions := rfl

/-- `TransactionRepository.create` does not touch store records. -/
theorem tx_create_stores (db : DB) (a b : Nat) (c : String) (d : Nat)
    (e f : String) (g i j : Int) (st : TransactionStatus) (p : Option Nat) :
    ((TransactionRepository.create db a b c d e f g i j st p).1).stores =
      db.stores := rfl

/-- `TransactionRepository.create` stores the record it returns under the
transaction id. -/
theorem tx_create_transactions_self (db : DB) (a b : Nat) (c : String)
    (d : Nat) (e f : String) (g i j : Int) (st : TransactionStatus)
    (p : Option Nat) :
    ((TransactionRepository.create db a b c d e f g i j st p).1).transactions
      a = some ((TransactionRepository.create db a b c d e f g i j st p).2) := by
  unfold TransactionRepository.create
  simp

/-- `update_balance` does not touch store records. -/
theorem update_balance_stores (db : DB) (i : Nat) (b : Int) :
    ((HomelessPersonRepository.update_balance db i b).1).stores = db.stores := by
  unfold HomelessPersonRepository.update_balance
  split <;> rfl

/-- `update_income` increments the income of an existing store record. -/
theorem update_income_stores_self (db : DB) (i : Nat) (a : Int) (s : Store)
    (hs : db.stores i = some s) :
    ((StoreRepository.update_income db i a).1).stores i =
      some { s with total_income := s.total_income + a } := by
  unfold StoreRepository.update_income
  rw [hs]
  simp

/-- C10: in every execution in which the pre-lock validations saw an active
beneficiary but the record found by the locked re-read has any non-active
status (it was deactivated or suspended while the call was suspended), the
transaction still proceeds: it debits the balance, credits the store income
and writes a completed Transaction record — the re-read checks existence
only, never status. -/
theorem transaction_ignores_status_on_reread
    (tx_id : Nat) (interfere : DB → DB) (db db1 : DB)
    (data : TransactionCreate) (res : Except PyError Transaction)
    (h h2 : HomelessPerson) (s s2 : Store)
    (hlook : HomelessPersonRepository.get_by_qr_code db data.homeless_qr_code =
      some h)
    (hactive : h.status = Status.active)
    (hslook : StoreRepository.get_by_qr_code db data.store_qr_code = some s)
    (hsactive : s.status = Status.active)
    (hprod : TransactionService.product_check db data = none)
    (hlock : db.locks h.id = false)
    (hre : HomelessPersonRepository.get_by_id
      (interfere (HomelessPersonRepository.acquire_lock db h.id).1) h.id =
      some h2)
    (hid : h2.id = h.id)
    (hstatus : h2.status ≠ Status.active)
    (hsuf : data.amount ≤ h2.balance)
    (hs2 : (interfere (HomelessPersonRepository.acquire_lock db h.id).1).stores
      s.id = some s2)
    (hrun : TransactionService.create_transaction tx_id interfere db data =
      (db1, res)) :
    ∃ tx, res = Except.ok tx ∧
      tx.status = TransactionStatus.completed ∧
      tx.balance_before = h2.balance ∧
      tx.balance_after = h2.balance - data.amount ∧
      db1.homeless h.id = some { h2 with balance := h2.balance - data.amount } ∧
      db1.stores s.id =
        some { s2 with total_income := s2.total_income + data.amount } ∧
      db1.transactions tx_id = some tx := by
  unfold TransactionService.create_transaction at hrun
  split at hrun
  · rename_i heq
    rw [hlook] at heq
    simp at heq
  · rename_i hx heq
    rw [hlook] at heq
    injection heq with heq
    subst heq
    split at hrun
    · rename_i hcond
      exact absurd hactive (by simpa using hcond)
    · split at hrun
      · rename_i heq
        rw [hslook] at heq
        simp at heq
      · rename_i sx heq
        rw [hslook] at heq
        injection heq with heq
        subst heq
        split at hrun
        · rename_i hcond
          exact absurd hsactive (by simpa using hcond)
        · split at hrun
          · rename_i e heq
            rw [hprod] at heq
            simp at heq
          · by_cases hacq :
              (HomelessPersonRepository.acquire_lock db h.id).2 = true
            · simp only [hacq, not_true, if_false, ite_false] at hrun
              split at hrun
              · rename_i heq
                rw [hre] at heq
                simp at heq
              · rename_i h2x heq
                rw [hre] at heq
                injection heq with heq
                subst heq
                split at hrun
                · rename_i hneg
                  exact absurd hneg (by omega)
                · rw [Prod.mk.injEq] at hrun
                  obtain ⟨hdb, hres⟩ := hrun
                  subst hres
                  subst hdb
                  refine ⟨_, rfl, rfl, rfl, rfl, ?_, ?_, ?_⟩
                  · rw [release_lock_homeless, tx_create_homeless,
                      update_income_homeless, ← hid]
                    exact update_balance_homeless_self _ h2.id _ h2
                      (by rw [hid]; exact hre)
                  · rw [release_lock_stores, tx_create_stores]
                    exact update_income_stores_self _ s.id data.amount s2
                      (by rw [update_balance_stores]; exact hs2)
                  · rw [release_lock_transactions]
                    exact tx_create_transactions_self _ tx_id h2.id
                      data.homeless_qr_code s.id data.store_qr_code
                      data.product_name data.amount h2.balance
                      (h2.balance - data.amount) TransactionStatus.completed
                      data.product_id
            · have hacq2 :
                  (HomelessPersonRepository.acquire_lock db h.id).2 = true := by
                unfold HomelessPersonRepository.acquire_lock
                rw [if_neg (by simp [hlock])]
              exact absurd hacq2 hacq

/-- Interference that suspends beneficiary 1 (admin status toggle) while the
transaction call is suspended between `acquire_lock` and the locked
re-read. -/
def suspendBeneficiary : DB → DB := fun st =>
  { st with
      homeless := fun j =>
        if j = 1 then some { sampleHomeless 500 with status := Status.suspended }
        else st.homeless j }

/-- The concrete C10 run: beneficiary 1 active with balance 500 at validation
time, suspended before the locked re-read, amount 300. -/
def run10 : DB × Except PyError Transaction :=
  TransactionService.create_transaction 99 suspendBeneficiary (testDB 500)
    (sampleRequest 300)

/-- Witness for C10: the suspended-under-lock run still completes, debits the
balance to 200, credits the store with 300 and stores a completed record. -/
theorem transaction_ignores_status_on_reread_witness :
    ∃ tx, run10.2 = Except.ok tx ∧
      tx.status = TransactionStatus.completed ∧
      tx.balance_before = 500 ∧
      tx.balance_after = 500 - (sampleRequest 300).amount ∧
      run10.1.homeless 1 = some { sampleHomeless 500 with
        status := Status.suspended, balance := 500 - (sampleRequest 300).amount } ∧
      run10.1.stores 2 = some { sampleStore with
        total_income := sampleStore.total_income + (sampleRequest 300).amount } ∧
      run10.1.transactions 99 = some tx :=
  transaction_ignores_status_on_reread 99 suspendBeneficiary (testDB 500)
    run10.1 (sampleRequest 300) run10.2 (sampleHomeless 500)
    { sampleHomeless 500 with status := Status.suspended } sampleStore
    sampleStore (by decide) rfl (by decide) rfl (by decide) (by decide)
    (by decide) rfl (by decide) (by decide) (by decide) rfl

/-! ## C2: two concurrent `create_transaction` calls against one beneficiary

The two calls run in concurrent request handlers and share state only
through Redis, so an interleaving can only be observed at the Redis
operations.  Each step of the machine below is one repository call of
`create_transaction` (the same definitions used by the sequential model);
between any two steps of one call the scheduler may run steps of the other.
The modelled requests carry no `product_id`, matching the claim's scenario —
step 3 of the source performs no Redis access in that case.  Thread-local
variables (`homeless`, `store`, `balance_before`, `balance_after`) live in
the thread state; the branches that read an attribute of a `None` binding
produce `PyError.attributeError` exactly as in the sequential model. -/

/-- Program counter: the next repository call `create_transaction` will
perform.  `reread` covers the locked re-read together with the pure balance
check that follows it (no Redis access in between); `unlock` is the
`finally` block. -/
inductive PC where
  | validateHomeless
  | validateStore
  | acquireLock
  | reread
  | deduct
  | credit
  | writeTx
  | unlock
  | done
  deriving Repr, DecidableEq

/-- One in-flight `create_transaction` call: program counter, request, the
`uuid4()` result, and the local variable bindings of the source. -/
structure ThreadState where
  pc : PC
  req : TransactionCreate
  tx_id : Nat
  homeless : Option HomelessPerson
  store : Option Store
  balance_before : Int
  balance_after : Int
  result : Option (Except PyError Transaction)
  deriving Repr

/-- One atomic step of a call: the repository call at the current program
counter, against the shared store. -/
def threadStep (db : DB) (t : ThreadState) : DB × ThreadState :=
  match t.pc with
  | PC.validateHomeless =>
      match HomelessPersonRepository.get_by_qr_code db t.req.homeless_qr_code with
      | none =>
          let e := PyError.txError (TxError.homelessNotFound t.req.homeless_qr_code)
          (db, { t with pc := PC.done, result := some (Except.error e) })
      | some h =>
          if h.status ≠ Status.active then
            let e := PyError.txError (TxError.homelessInactive h.id)
            (db, { t with pc := PC.done, result := some (Except.error e) })
          else (db, { t with homeless := some h, pc := PC.validateStore })
  | PC.validateStore =>
      match StoreRepository.get_by_qr_code db t.req.store_qr_code with
      | none =>
          let e := PyError.txError (TxError.storeNotFound t.req.store_qr_code)
          (db, { t with pc := PC.done, result := some (Except.error e) })
      | some s =>
          if s.status ≠ Status.active then
            let e := PyError.txError (TxError.storeInactive s.id)
            (db, { t with pc := PC.done, result := some (Except.error e) })
          else (db, { t with store := some s, pc := PC.acquireLock })
  | PC.acquireLock =>
      match t.homeless with
      | none =>
          (db, { t with pc := PC.done, result := some (Except.error PyError.attributeError) })
      | some h =>
          let acq := HomelessPersonRepository.acquire_lock db h.id
          if acq.2 then (acq.1, { t with pc := PC.reread })
          else
            let e := PyError.txError (TxError.transactionLocked h.id)
            (acq.1, { t with pc := PC.done, result := some (Except.error e) })
  | PC.reread =>
      match t.homeless with
      | none =>
          (db, { t with pc := PC.done, result := some (Except.error PyError.attributeError) })
      | some h =>
          match HomelessPersonRepository.get_by_id db h.id with
          | none =>
              let e := PyError.txError (TxError.homelessNotFound t.req.homeless_qr_code)
              (db, { t with homeless := none, pc := PC.unlock, result := some (Except.error e) })
          | some h2 =>
              if h2.balance - t.req.amount < 0 then
                let e := PyError.txError (TxError.insufficientBalance h2.balance t.req.amount)
                (db, { t with homeless := some h2, balance_before := h2.balance, balance_after := h2.balance - t.req.amount, pc := PC.unlock, result := some (Except.error e) })
              else
                (db, { t with homeless := some h2, balance_before := h2.balance, balance_after := h2.balance - t.req.amount, pc := PC.deduct })
  | PC.deduct =>
      match t.homeless with
      | none =>
          (db, { t with pc := PC.done, result := some (Except.error PyError.attributeError) })
      | some h2 =>
          ((HomelessPersonRepository.update_balance db h2.id t.balance_after).1, { t with pc := PC.credit })
  | PC.credit =>
      match t.store with
      | none =>
          (db, { t with pc := PC.done, result := some (Except.error PyError.attributeError) })
      | some s =>
          ((StoreRepository.update_income db s.id t.req.amount).1, { t with pc := PC.writeTx })
  | PC.writeTx =>
      match t.homeless, t.store with
      | some h2, some s =>
          let rec0 := TransactionRepository.create db t.tx_id h2.id t.req.homeless_qr_code s.id t.req.store_qr_code t.req.product_name t.req.amount t.balance_before t.balance_after TransactionStatus.completed t.req.product_id
          (rec0.1, { t with pc := PC.unlock, result := some (Except.ok rec0.2) })
      | _, _ =>
          (db, { t with pc := PC.done, result := some (Except.error PyError.attributeError) })
  | PC.unlock =>
      match t.homeless with
      | some h2 =>
          (HomelessPersonRepository.release_lock db h2.id, { t with pc := PC.done })
      | none =>
          (db, { t with pc := PC.done, result := some (Except.error PyError.attributeError) })
  | PC.done => (db, t)

/-- The shared store plus the two in-flight calls (indexed by `Bool`). -/
structure CState where
  db : DB
  threads : Bool → ThreadState

/-- Run one step of the chosen call. -/
def cstep (w : Bool) (st : CState) : CState :=
  let r := threadStep st.db (st.threads w)
  { db := r.1, threads := fun b => if b = w then r.2 else st.threads b }

/-- Run a whole schedule (the order in which the request handlers get to
perform their next Redis operation). -/
def crun (sched : List Bool) (st : CState) : CState :=
  sched.foldl (fun acc w => cstep w acc) st

/-- A fresh in-flight call. -/
def initThread (req : TransactionCreate) (tid : Nat) : ThreadState where
  pc := PC.validateHomeless
  req := req
  tx_id := tid
  homeless := none
  store := none
  balance_before := 0
  balance_after := 0
  result := none

/-- The parameters of the C2 scenario: one beneficiary, one store, a starting
balance `B`, and one amount per call. -/
structure Scenario where
  hid : Nat
  sid : Nat
  qrH : String
  qrS : String
  pname : String
  B : Int
  amt : Bool → Int

/-- The request issued by call `w`. -/
def Scenario.req (sc : Scenario) (w : Bool) : TransactionCreate where
  homeless_qr_code := sc.qrH
  store_qr_code := sc.qrS
  product_id := none
  product_name := sc.pname
  amount := sc.amt w

/-- The claim's arithmetic premise: each amount would individually succeed,
but together they overdraw the balance. -/
def Scenario.amountsOk (sc : Scenario) : Prop :=
  (∀ w, 0 < sc.amt w) ∧ (∀ w, sc.amt w ≤ sc.B) ∧
    sc.B < sc.amt true + sc.amt false

/-- The initial shared store of the scenario: the beneficiary exists, is
active with balance `B`, the store exists and is active, and the lock is
free. -/
def Scenario.InitDB (sc : Scenario) (db : DB) : Prop :=
  db.homelessQrIndex sc.qrH = some sc.hid ∧
  (∃ h0, db.homeless sc.hid = some h0 ∧ h0.id = sc.hid ∧
    h0.status = Status.active ∧ h0.balance = sc.B) ∧
  db.storeQrIndex sc.qrS = some sc.sid ∧
  (∃ s0, db.stores sc.sid = some s0 ∧ s0.id = sc.sid ∧
    s0.status = Status.active) ∧
  db.locks sc.hid = false

/-- The initial machine state: both calls at their first step. -/
def Scenario.init (sc : Scenario) (db : DB) (ta tb : Nat) : CState where
  db := db
  threads := fun w =>
    if w then initThread (sc.req true) ta else initThread (sc.req false) tb

/-- Program counters inside the lock-protected region (between a successful
`acquire_lock` and the completion of `release_lock`). -/
def inCrit : PC → Bool
  | PC.reread => true
  | PC.deduct => true
  | PC.credit => true
  | PC.writeTx => true
  | PC.unlock => true
  | _ => false

/-- Program counters at which the `homeless` local is bound (to a record of
the scenario's beneficiary). -/
def pastValidateH : PC → Bool
  | PC.validateHomeless => false
  | PC.done => false
  | _ => true

/-- Program counters at which the `store` local is bound. -/
def pastValidateS : PC → Bool
  | PC.validateHomeless => false
  | PC.validateStore => false
  | PC.done => false
  | _ => true

/-- Did the call finish (or reach `writeTx`) with a Transaction? -/
def isOkResult : Option (Except PyError Transaction) → Bool
  | some (Except.ok _) => true
  | _ => false

/-- Is the recorded failure a `TransactionLocked`? -/
def isLockedResult : Option (Except PyError Transaction) → Bool
  | some (Except.error (PyError.txError (TxError.transactionLocked _))) => true
  | _ => false

/-- Is the recorded failure an `InsufficientBalance`? -/
def isInsufResult : Option (Except PyError Transaction) → Bool
  | some (Except.error (PyError.txError (TxError.insufficientBalance _ _))) => true
  | _ => false

/-- The only two failures the scenario can produce. -/
def isLockedOrInsufficient : PyError → Bool
  | PyError.txError (TxError.transactionLocked _) => true
  | PyError.txError (TxError.insufficientBalance _ _) => true
  | _ => false

/-- Has this call already debited the balance?  True from the moment the
`update_balance` write lands (pc past `deduct`) — equivalently: it is at
`credit`/`writeTx`, or it already holds an `ok` result. -/
def debited (t : ThreadState) : Bool :=
  (t.pc = PC.credit || t.pc = PC.writeTx) || isOkResult t.result

/-- The amount call `w` has withdrawn so far. -/
def debitOf (sc : Scenario) (st : CState) (w : Bool) : Int :=
  if debited (st.threads w) then sc.amt w else 0

/-- The inductive invariant of the two-call system.  It pins down: the stable
configuration (index entries, record identity and status), the balance
accounting (`B` minus the landed debits), lock ownership and mutual
exclusion, the local bindings each call holds, the deduct-step
preconditions, the result discipline (which failures can exist and what the
other call must have achieved when they do), and that the two calls never
both debit. -/
structure TwoCallInv (sc : Scenario) (st : CState) : Prop where
  qrIdx : st.db.homelessQrIndex sc.qrH = some sc.hid
  sIdx : st.db.storeQrIndex sc.qrS = some sc.sid
  person : ∃ h0, st.db.homeless sc.hid = some h0 ∧ h0.id = sc.hid ∧
    h0.status = Status.active ∧
    h0.balance = sc.B - debitOf sc st true - debitOf sc st false
  storeRec : ∃ s0, st.db.stores sc.sid = some s0 ∧ s0.id = sc.sid ∧
    s0.status = Status.active
  reqs : ∀ w, (st.threads w).req = sc.req w
  hloc : ∀ w, pastValidateH (st.threads w).pc = true →
    ∃ hh, (st.threads w).homeless = some hh ∧ hh.id = sc.hid
  sloc : ∀ w, pastValidateS (st.threads w).pc = true →
    ∃ ss, (st.threads w).store = some ss ∧ ss.id = sc.sid
  lockIff : st.db.locks sc.hid = true ↔
    (inCrit (st.threads true).pc = true ∨ inCrit (st.threads false).pc = true)
  mutex : ¬(inCrit (st.threads true).pc = true ∧
    inCrit (st.threads false).pc = true)
  deductLocal : ∀ w, (st.threads w).pc = PC.deduct →
    (st.threads w).balance_before = sc.B - debitOf sc st (!w) ∧
    (st.threads w).balance_after = (st.threads w).balance_before - sc.amt w ∧
    0 ≤ (st.threads w).balance_after
  resIff : ∀ w, (st.threads w).result ≠ none ↔
    ((st.threads w).pc = PC.unlock ∨ (st.threads w).pc = PC.done)
  errClass : ∀ w e, (st.threads w).result = some (Except.error e) →
    isLockedOrInsufficient e = true
  lockedProg : ∀ w, isLockedResult (st.threads w).result = true →
    ((st.threads (!w)).pc = PC.reread ∨ (st.threads (!w)).pc = PC.deduct ∨
      debited (st.threads (!w)) = true)
  insufProg : ∀ w, isInsufResult (st.threads w).result = true →
    debited (st.threads (!w)) = true
  notBoth : ¬(debited (st.threads true) = true ∧
    debited (st.threads false) = true)

/-- Stepping call `w` updates exactly that call's thread state. -/
theorem cstep_threads_active (w : Bool) (st : CState) :
    (cstep w st).threads w = (threadStep st.db (st.threads w)).2 := by
  simp [cstep]

/-- Stepping call `w` leaves the other call's thread state unchanged. -/
theorem cstep_threads_passive (w w0 : Bool) (st : CState) (hne : w0 ≠ w) :
    (cstep w st).threads w0 = st.threads w0 := by
  simp [cstep, hne]

/-- The store after stepping call `w`. -/
theorem cstep_db (w : Bool) (st : CState) :
    (cstep w st).db = (threadStep st.db (st.threads w)).1 := by
  simp [cstep]

/-- On `Bool`, distinct from `w` means equal to `!w`. -/
theorem bool_eq_not_of_ne {a b : Bool} (h : a ≠ b) : a = !b := by
  cases a <;> cases b <;> simp_all

/-- The invariant holds at the initial state of the scenario. -/
theorem twoCallInv_init (sc : Scenario) (db : DB) (ta tb : Nat)
    (hdb : sc.InitDB db) : TwoCallInv sc (sc.init db ta tb) := by
  obtain ⟨hqr, ⟨h0, hh0, hid0, hst0, hb0⟩, hsqr, ⟨s0, hs0, hsid0, hss0⟩, hlk⟩ :=
    hdb
  refine ⟨hqr, hsqr, ⟨h0, hh0, hid0, hst0, ?_⟩, ⟨s0, hs0, hsid0, hss0⟩,
    ?_, ?_, ?_, ?_, ?_, ?_, ?_, ?_, ?_, ?_, ?_⟩
  · simp [debitOf, debited, Scenario.init, initThread, isOkResult, hb0]
  · intro w
    cases w <;> rfl
  · intro w hw
    cases w <;> simp [Scenario.init, initThread, pastValidateH] at hw
  · intro w hw
    cases w <;> simp [Scenario.init, initThread, pastValidateS] at hw
  · simp [Scenario.init, initThread, inCrit, hlk]
  · simp [Scenario.init, initThread, inCrit]
  · intro w hw
    cases w <;> simp [Scenario.init, initThread] at hw
  · intro w
    cases w <;> simp [Scenario.init, initThread]
  · intro w e he
    cases w <;> simp [Scenario.init, initThread] at he
  · intro w hw
    cases w <;> simp [Scenario.init, initThread, isLockedResult] at hw
  · intro w hw
    cases w <;> simp [Scenario.init, initThread, isInsufResult] at hw
  · simp [Scenario.init, initThread, debited, isOkResult]

/-- Invariant preservation for a step at `validateHomeless`. -/
theorem step_inv_validateHomeless (sc : Scenario) (st : CState)
    (hinv : TwoCallInv sc st) (w : Bool)
    (hpc : (st.threads w).pc = PC.validateHomeless) :
    TwoCallInv sc (cstep w st) := by
  obtain ⟨hqr, hsqr, ⟨h0, hh0, hid0, hst0, hb0⟩, ⟨s0, hs0, hsid0, hss0⟩,
    hreqs, hhloc, hsloc, hlockIff, hmutex, hded, hresIff, herr, hlockedP,
    hinsufP, hnotBoth⟩ := hinv
  have hresnone : (st.threads w).result = none := by
    by_contra hne
    have h2 := (hresIff w).1 hne
    rw [hpc] at h2
    simp at h2
  have hlookup : HomelessPersonRepository.get_by_qr_code st.db
      (st.threads w).req.homeless_qr_code = some h0 := by
    rw [hreqs w]
    show HomelessPersonRepository.get_by_qr_code st.db sc.qrH = some h0
    simp [HomelessPersonRepository.get_by_qr_code,
      HomelessPersonRepository.get_by_id, hqr, hh0]
  have hstep : threadStep st.db (st.threads w) =
      (st.db, { st.threads w with homeless := some h0, pc := PC.validateStore }) := by
    unfold threadStep
    rw [hpc]
    simp [hlookup, hst0]
  have hdb2 : (cstep w st).db = st.db := by rw [cstep_db, hstep]
  have hact : (cstep w st).threads w =
      { st.threads w with homeless := some h0, pc := PC.validateStore } := by
    rw [cstep_threads_active, hstep]
  have hpas : ∀ w0, w0 ≠ w → (cstep w st).threads w0 = st.threads w0 :=
    fun w0 h => cstep_threads_passive w w0 st h
  have hdeb : ∀ w0,
      debited ((cstep w st).threads w0) = debited (st.threads w0) := by
    intro w0
    by_cases hw0 : w0 = w
    · subst w0
      rw [hact]
      simp [debited, hpc, hresnone]
    · rw [hpas w0 hw0]
  have hdebitOf : ∀ w0, debitOf sc (cstep w st) w0 = debitOf sc st w0 := by
    intro w0
    unfold debitOf
    rw [hdeb w0]
  have hcrit : ∀ w0,
      inCrit ((cstep w st).threads w0).pc = inCrit (st.threads w0).pc := by
    intro w0
    by_cases hw0 : w0 = w
    · subst w0
      rw [hact, hpc]
      simp [inCrit]
    · rw [hpas w0 hw0]
  refine ⟨by rw [hdb2]; exact hqr, by rw [hdb2]; exact hsqr,
    ⟨h0, by rw [hdb2]; exact hh0, hid0, hst0,
      by rw [hdebitOf true, hdebitOf false]; exact hb0⟩,
    ⟨s0, by rw [hdb2]; exact hs0, hsid0, hss0⟩, ?_, ?_, ?_, ?_, ?_, ?_, ?_,
    ?_, ?_, ?_, ?_⟩
  · intro w0
    by_cases hw0 : w0 = w
    · subst w0
      rw [hact]
      exact hreqs w
    · rw [hpas w0 hw0]
      exact hreqs w0
  · intro w0 hw0p
    by_cases hw0 : w0 = w
    · subst w0
      rw [hact]
      exact ⟨h0, rfl, hid0⟩
    · rw [hpas w0 hw0] at hw0p ⊢
      exact hhloc w0 hw0p
  · intro w0 hw0p
    by_cases hw0 : w0 = w
    · subst w0
      rw [hact] at hw0p
      simp [pastValidateS] at hw0p
    · rw [hpas w0 hw0] at hw0p ⊢
      exact hsloc w0 hw0p
  · rw [hdb2, hcrit true, hcrit false]
    exact hlockIff
  · rw [hcrit true, hcrit false]
    exact hmutex
  · intro w0 hw0pc
    by_cases hw0 : w0 = w
    · subst w0
      rw [hact] at hw0pc
      simp at hw0pc
    · rw [hpas w0 hw0] at hw0pc ⊢
      rw [hdebitOf (!w0)]
      exact hded w0 hw0pc
  · intro w0
    by_cases hw0 : w0 = w
    · subst w0
      rw [hact]
      simp [hresnone]
    · rw [hpas w0 hw0]
      exact hresIff w0
  · intro w0 e he
    by_cases hw0 : w0 = w
    · subst w0
      rw [hact] at he
      have he2 : (st.threads w).result = some (Except.error e) := he
      rw [hresnone] at he2
      exact Option.noConfusion he2
    · rw [hpas w0 hw0] at he
      exact herr w0 e he
  · intro w0 hl
    by_cases hw0 : w0 = w
    · subst w0
      rw [hact] at hl
      have he2 : isLockedResult (st.threads w).result = true := hl
      rw [hresnone] at he2
      simp [isLockedResult] at he2
    · have hw0n : w0 = !w := bool_eq_not_of_ne hw0
      rw [hpas w0 hw0] at hl
      have hold := hlockedP w0 hl
      have hww : (!w0) = w := by rw [hw0n]; simp
      rw [hww] at hold
      rcases hold with h | h | h
      · rw [hpc] at h
        simp at h
      · rw [hpc] at h
        simp at h
      · simp [debited, hpc, hresnone, isOkResult] at h
  · intro w0 hl
    by_cases hw0 : w0 = w
    · subst w0
      rw [hact] at hl
      have he2 : isInsufResult (st.threads w).result = true := hl
      rw [hresnone] at he2
      simp [isInsufResult] at he2
    · rw [hpas w0 hw0] at hl
      have hold := hinsufP w0 hl
      have hww : (!w0) = w := by
        rw [bool_eq_not_of_ne hw0]
        simp
      rw [hww] at hold
      simp [debited, hpc, hresnone, isOkResult] at hold
  · rw [hdeb true, hdeb false]
    exact hnotBoth

/-- Invariant preservation for a step at `validateStore`. -/
theorem step_inv_validateStore (sc : Scenario) (st : CState)
    (hinv : TwoCallInv sc st) (w : Bool)
    (hpc : (st.threads w).pc = PC.validateStore) :
    TwoCallInv sc (cstep w st) := by
  obtain ⟨hqr, hsqr, ⟨h0, hh0, hid0, hst0, hb0⟩, ⟨s0, hs0, hsid0, hss0⟩,
    hreqs, hhloc, hsloc, hlockIff, hmutex, hded, hresIff, herr, hlockedP,
    hinsufP, hnotBoth⟩ := hinv
  have hresnone : (st.threads w).result = none := by
    by_contra hne
    have h2 := (hresIff w).1 hne
    rw [hpc] at h2
    simp at h2
  have hlookupS : StoreRepository.get_by_qr_code st.db
      (st.threads w).req.store_qr_code = some s0 := by
    rw [hreqs w]
    show StoreRepository.get_by_qr_code st.db sc.qrS = some s0
    simp [StoreRepository.get_by_qr_code, StoreRepository.get_by_id, hsqr, hs0]
  have hstep : threadStep st.db (st.threads w) =
      (st.db, { st.threads w with store := some s0, pc := PC.acquireLock }) := by
    unfold threadStep
    rw [hpc]
    simp [hlookupS, hss0]
  have hdb2 : (cstep w st).db = st.db := by rw [cstep_db, hstep]
  have hact : (cstep w st).threads w =
      { st.threads w with store := some s0, pc := PC.acquireLock } := by
    rw [cstep_threads_active, hstep]
  have hpas : ∀ w0, w0 ≠ w → (cstep w st).threads w0 = st.threads w0 :=
    fun w0 h => cstep_threads_passive w w0 st h
  have hdeb : ∀ w0,
      debited ((cstep w st).threads w0) = debited (st.threads w0) := by
    intro w0
    by_cases hw0 : w0 = w
    · subst w0
      rw [hact]
      simp [debited, hpc, hresnone]
    · rw [hpas w0 hw0]
  have hdebitOf : ∀ w0, debitOf sc (cstep w st) w0 = debitOf sc st w0 := by
    intro w0
    unfold debitOf
    rw [hdeb w0]
  have hcrit : ∀ w0,
      inCrit ((cstep w st).threads w0).pc = inCrit (st.threads w0).pc := by
    intro w0
    by_cases hw0 : w0 = w
    · subst w0
      rw [hact, hpc]
      simp [inCrit]
    · rw [hpas w0 hw0]
  refine ⟨by rw [hdb2]; exact hqr, by rw [hdb2]; exact hsqr,
    ⟨h0, by rw [hdb2]; exact hh0, hid0, hst0,
      by rw [hdebitOf true, hdebitOf false]; exact hb0⟩,
    ⟨s0, by rw [hdb2]; exact hs0, hsid0, hss0⟩, ?_, ?_, ?_, ?_, ?_, ?_, ?_,
    ?_, ?_, ?_, ?_⟩
  · intro w0
    by_cases hw0 : w0 = w
    · subst w0
      rw [hact]
      exact hreqs w
    · rw [hpas w0 hw0]
      exact hreqs w0
  · intro w0 hw0p
    by_cases hw0 : w0 = w
    · subst w0
      rw [hact]
      have hold := hhloc w (by rw [hpc]; rfl)
      exact hold
    · rw [hpas w0 hw0] at hw0p ⊢
      exact hhloc w0 hw0p
  · intro w0 hw0p
    by_cases hw0 : w0 = w
    · subst w0
      rw [hact]
      exact ⟨s0, rfl, hsid0⟩
    · rw [hpas w0 hw0] at hw0p ⊢
      exact hsloc w0 hw0p
  · rw [hdb2, hcrit true, hcrit false]
    exact hlockIff
  · rw [hcrit true, hcrit false]
    exact hmutex
  · intro w0 hw0pc
    by_cases hw0 : w0 = w
    · subst w0
      rw [hact] at hw0pc
      simp at hw0pc
    · rw [hpas w0 hw0] at hw0pc ⊢
      rw [hdebitOf (!w0)]
      exact hded w0 hw0pc
  · intro w0
    by_cases hw0 : w0 = w
    · subst w0
      rw [hact]
      simp [hresnone]
    · rw [hpas w0 hw0]
      exact hresIff w0
  · intro w0 e he
    by_cases hw0 : w0 = w
    · subst w0
      rw [hact] at he
      have he2 : (st.threads w).result = some (Except.error e) := he
      rw [hresnone] at he2
      exact Option.noConfusion he2
    · rw [hpas w0 hw0] at he
      exact herr w0 e he
  · intro w0 hl
    by_cases hw0 : w0 = w
    · subst w0
      rw [hact] at hl
      have he2 : isLockedResult (st.threads w).result = true := hl
      rw [hresnone] at he2
      simp [isLockedResult] at he2
    · rw [hpas w0 hw0] at hl
      have hold := hlockedP w0 hl
      have hww : (!w0) = w := by
        rw [bool_eq_not_of_ne hw0]
        simp
      rw [hww] at hold
      rcases hold with h | h | h
      · rw [hpc] at h
        simp at h
      · rw [hpc] at h
        simp at h
      · simp [debited, hpc, hresnone, isOkResult] at h
  · intro w0 hl
    by_cases hw0 : w0 = w
    · subst w0
      rw [hact] at hl
      have he2 : isInsufResult (st.threads w).result = true := hl
      rw [hresnone] at he2
      simp [isInsufResult] at he2
    · rw [hpas w0 hw0] at hl
      have hold := hinsufP w0 hl
      have hww : (!w0) = w := by
        rw [bool_eq_not_of_ne hw0]
        simp
      rw [hww] at hold
      simp [debited, hpc, hresnone, isOkResult] at hold
  · rw [hdeb true, hdeb false]
    exact hnotBoth

/-- On `Bool`, a property at `w` gives the disjunction over both values. -/
theorem bool_or_of (P : Bool → Prop) (w : Bool) (h : P w) : P true ∨ P false := by
  cases w
  · exact Or.inr h
  · exact Or.inl h

/-- Invariant preservation for a step at `acquireLock`. -/
theorem step_inv_acquireLock (sc : Scenario) (st : CState)
    (hinv : TwoCallInv sc st) (w : Bool)
    (hpc : (st.threads w).pc = PC.acquireLock) :
    TwoCallInv sc (cstep w st) := by
  obtain ⟨hqr, hsqr, ⟨h0, hh0, hid0, hst0, hb0⟩, ⟨s0, hs0, hsid0, hss0⟩,
    hreqs, hhloc, hsloc, hlockIff, hmutex, hded, hresIff, herr, hlockedP,
    hinsufP, hnotBoth⟩ := hinv
  have hresnone : (st.threads w).result = none := by
    by_contra hne
    have h2 := (hresIff w).1 hne
    rw [hpc] at h2
    simp at h2
  obtain ⟨hh, hhom, hhid⟩ := hhloc w (by rw [hpc]; rfl)
  obtain ⟨ssb, hsb, hsbid⟩ := hsloc w (by rw [hpc]; rfl)
  by_cases hlk : st.db.locks sc.hid = true
  · -- the lock is held: acquisition fails with TransactionLocked
    have hstep : threadStep st.db (st.threads w) =
        (st.db, { st.threads w with pc := PC.done, result := some (Except.error (PyError.txError (TxError.transactionLocked hh.id))) }) := by
      unfold threadStep
      rw [hpc, hhom]
      have hA : HomelessPersonRepository.acquire_lock st.db hh.id =
          (st.db, false) := by
        unfold HomelessPersonRepository.acquire_lock
        rw [hhid, if_pos hlk]
      simp [hA, hhom]
    have hdb2 : (cstep w st).db = st.db := by rw [cstep_db, hstep]
    have hact : (cstep w st).threads w =
        { st.threads w with pc := PC.done, result := some (Except.error (PyError.txError (TxError.transactionLocked hh.id))) } := by
      rw [cstep_threads_active, hstep]
    have hpas : ∀ w0, w0 ≠ w → (cstep w st).threads w0 = st.threads w0 :=
      fun w0 h => cstep_threads_passive w w0 st h
    have hdeb : ∀ w0,
        debited ((cstep w st).threads w0) = debited (st.threads w0) := by
      intro w0
      by_cases hw0 : w0 = w
      · subst w0
        rw [hact]
        simp [debited, hpc, hresnone, isOkResult]
      · rw [hpas w0 hw0]
    have hdebitOf : ∀ w0, debitOf sc (cstep w st) w0 = debitOf sc st w0 := by
      intro w0
      unfold debitOf
      rw [hdeb w0]
    have hcrit : ∀ w0,
        inCrit ((cstep w st).threads w0).pc = inCrit (st.threads w0).pc := by
      intro w0
      by_cases hw0 : w0 = w
      · subst w0
        rw [hact, hpc]
        simp [inCrit]
      · rw [hpas w0 hw0]
    refine ⟨by rw [hdb2]; exact hqr, by rw [hdb2]; exact hsqr,
      ⟨h0, by rw [hdb2]; exact hh0, hid0, hst0,
        by rw [hdebitOf true, hdebitOf false]; exact hb0⟩,
      ⟨s0, by rw [hdb2]; exact hs0, hsid0, hss0⟩, ?_, ?_, ?_, ?_, ?_, ?_, ?_,
      ?_, ?_, ?_, ?_⟩
    · intro w0
      by_cases hw0 : w0 = w
      · subst w0
        rw [hact]
        exact hreqs w
      · rw [hpas w0 hw0]
        exact hreqs w0
    · intro w0 hw0p
      by_cases hw0 : w0 = w
      · subst w0
        rw [hact] at hw0p
        simp [pastValidateH] at hw0p
      · rw [hpas w0 hw0] at hw0p ⊢
        exact hhloc w0 hw0p
    · intro w0 hw0p
      by_cases hw0 : w0 = w
      · subst w0
        rw [hact] at hw0p
        simp [pastValidateS] at hw0p
      · rw [hpas w0 hw0] at hw0p ⊢
        exact hsloc w0 hw0p
    · rw [hdb2, hcrit true, hcrit false]
      exact hlockIff
    · rw [hcrit true, hcrit false]
      exact hmutex
    · intro w0 hw0pc
      by_cases hw0 : w0 = w
      · subst w0
        rw [hact] at hw0pc
        simp at hw0pc
      · rw [hpas w0 hw0] at hw0pc ⊢
        rw [hdebitOf (!w0)]
        exact hded w0 hw0pc
    · intro w0
      by_cases hw0 : w0 = w
      · subst w0
        rw [hact]
        simp
      · rw [hpas w0 hw0]
        exact hresIff w0
    · intro w0 e he
      by_cases hw0 : w0 = w
      · subst w0
        rw [hact] at he
        have he2 : some (Except.error (PyError.txError (TxError.transactionLocked hh.id))) = some (Except.error e) := he
        injection he2 with he3
        injection he3 with he4
        rw [← he4]
        rfl
      · rw [hpas w0 hw0] at he
        exact herr w0 e he
    · intro w0 hl
      by_cases hw0 : w0 = w
      · -- the newly failed call: the other one is inside the critical
        -- section and will (or did) debit
        subst w0
        have hor := hlockIff.1 hlk
        have hnotw : inCrit (st.threads w).pc = false := by rw [hpc]; rfl
        have hcritO : inCrit (st.threads (!w)).pc = true := by
          cases w
          · rcases hor with h | h
            · exact h
            · simp [hnotw] at h
          · rcases hor with h | h
            · simp [hnotw] at h
            · exact h
        have hpasO : (cstep w st).threads (!w) = st.threads (!w) :=
          hpas (!w) (by cases w <;> simp)
        rw [hpasO]
        cases hpcO2 : (st.threads (!w)).pc with
        | validateHomeless => rw [hpcO2] at hcritO; simp [inCrit] at hcritO
        | validateStore => rw [hpcO2] at hcritO; simp [inCrit] at hcritO
        | acquireLock => rw [hpcO2] at hcritO; simp [inCrit] at hcritO
        | done => rw [hpcO2] at hcritO; simp [inCrit] at hcritO
        | reread => exact Or.inl rfl
        | deduct => exact Or.inr (Or.inl rfl)
        | credit => exact Or.inr (Or.inr (by simp [debited, hpcO2]))
        | writeTx => exact Or.inr (Or.inr (by simp [debited, hpcO2]))
        | unlock =>
            have hsome : (st.threads (!w)).result ≠ none :=
              (hresIff (!w)).2 (Or.inl hpcO2)
            rcases hres2 : (st.threads (!w)).result with _ | r
            · exact absurd hres2 hsome
            · rcases r with e2 | tx2
              · have hcl := herr (!w) e2 hres2
                cases e2 with
                | txError te =>
                  cases te with
                  | transactionLocked i =>
                      have hl2 : isLockedResult (st.threads (!w)).result = true := by
                        rw [hres2]; rfl
                      have hprog := hlockedP (!w) hl2
                      have hnn : (!(!w)) = w := by simp
                      rw [hnn] at hprog
                      rcases hprog with h | h | h
                      · rw [hpc] at h; simp at h
                      · rw [hpc] at h; simp at h
                      · simp [debited, hpc, hresnone, isOkResult] at h
                  | insufficientBalance a b =>
                      have hl2 : isInsufResult (st.threads (!w)).result = true := by
                        rw [hres2]; rfl
                      have hprog := hinsufP (!w) hl2
                      have hnn : (!(!w)) = w := by simp
                      rw [hnn] at hprog
                      simp [debited, hpc, hresnone, isOkResult] at hprog
                  | homelessNotFound q => simp [isLockedOrInsufficient] at hcl
                  | storeNotFound q => simp [isLockedOrInsufficient] at hcl
                  | homelessInactive i => simp [isLockedOrInsufficient] at hcl
                  | storeInactive i => simp [isLockedOrInsufficient] at hcl
                  | productInactive i => simp [isLockedOrInsufficient] at hcl
                | attributeError => simp [isLockedOrInsufficient] at hcl
              · exact Or.inr (Or.inr (by simp [debited, isOkResult, hres2]))
      · rw [hpas w0 hw0] at hl
        have hold := hlockedP w0 hl
        have hww : (!w0) = w := by
          rw [bool_eq_not_of_ne hw0]
          simp
        rw [hww] at hold
        rcases hold with h | h | h
        · rw [hpc] at h
          simp at h
        · rw [hpc] at h
          simp at h
        · simp [debited, hpc, hresnone, isOkResult] at h
    · intro w0 hl
      by_cases hw0 : w0 = w
      · subst w0
        rw [hact] at hl
        have he2 : isInsufResult (some (Except.error (PyError.txError (TxError.transactionLocked hh.id)))) = true := hl
        simp [isInsufResult] at he2
      · rw [hpas w0 hw0] at hl
        have hold := hinsufP w0 hl
        have hww : (!w0) = w := by
          rw [bool_eq_not_of_ne hw0]
          simp
        rw [hww] at hold
        simp [debited, hpc, hresnone, isOkResult] at hold
    · rw [hdeb true, hdeb false]
      exact hnotBoth
  · -- the lock is free: acquisition succeeds, the call enters the critical
    -- section
    have hlkF : st.db.locks sc.hid = false := by
      cases hv : st.db.locks sc.hid
      · rfl
      · exact absurd hv hlk
    have hstep : threadStep st.db (st.threads w) =
        ({ st.db with locks := fun j => if j = hh.id then true else st.db.locks j }, { st.threads w with pc := PC.reread }) := by
      unfold threadStep
      rw [hpc, hhom]
      have hA : HomelessPersonRepository.acquire_lock st.db hh.id =
          ({ st.db with locks := fun j => if j = hh.id then true else st.db.locks j }, true) := by
        unfold HomelessPersonRepository.acquire_lock
        rw [if_neg (by rw [hhid]; simp [hlkF])]
      simp [hA, hhom]
    have hdb2 : (cstep w st).db =
        { st.db with locks := fun j => if j = hh.id then true else st.db.locks j } := by
      rw [cstep_db, hstep]
    have hact : (cstep w st).threads w =
        { st.threads w with pc := PC.reread } := by
      rw [cstep_threads_active, hstep]
    have hpas : ∀ w0, w0 ≠ w → (cstep w st).threads w0 = st.threads w0 :=
      fun w0 h => cstep_threads_passive w w0 st h
    have hdeb : ∀ w0,
        debited ((cstep w st).threads w0) = debited (st.threads w0) := by
      intro w0
      by_cases hw0 : w0 = w
      · subst w0
        rw [hact]
        simp [debited, hpc, hresnone, isOkResult]
      · rw [hpas w0 hw0]
    have hdebitOf : ∀ w0, debitOf sc (cstep w st) w0 = debitOf sc st w0 := by
      intro w0
      unfold debitOf
      rw [hdeb w0]
    refine ⟨by rw [hdb2]; exact hqr, by rw [hdb2]; exact hsqr,
      ⟨h0, by rw [hdb2]; exact hh0, hid0, hst0,
        by rw [hdebitOf true, hdebitOf false]; exact hb0⟩,
      ⟨s0, by rw [hdb2]; exact hs0, hsid0, hss0⟩, ?_, ?_, ?_, ?_, ?_, ?_, ?_,
      ?_, ?_, ?_, ?_⟩
    · intro w0
      by_cases hw0 : w0 = w
      · subst w0
        rw [hact]
        exact hreqs w
      · rw [hpas w0 hw0]
        exact hreqs w0
    · intro w0 hw0p
      by_cases hw0 : w0 = w
      · subst w0
        rw [hact]
        exact ⟨hh, hhom, hhid⟩
      · rw [hpas w0 hw0] at hw0p ⊢
        exact hhloc w0 hw0p
    · intro w0 hw0p
      by_cases hw0 : w0 = w
      · subst w0
        rw [hact]
        exact ⟨ssb, hsb, hsbid⟩
      · rw [hpas w0 hw0] at hw0p ⊢
        exact hsloc w0 hw0p
    · constructor
      · intro _
        exact bool_or_of (fun b => inCrit ((cstep w st).threads b).pc = true) w
          (by show inCrit ((cstep w st).threads w).pc = true; rw [hact]; rfl)
      · intro _
        rw [hdb2]
        show (if sc.hid = hh.id then true else st.db.locks sc.hid) = true
        simp [hhid]
    · intro hboth
      have hp : inCrit ((cstep w st).threads (!w)).pc = true := by
        cases w
        · exact hboth.1
        · exact hboth.2
      rw [hpas (!w) (by cases w <;> simp)] at hp
      have hlt := hlockIff.2
        (bool_or_of (fun b => inCrit (st.threads b).pc = true) (!w) hp)
      rw [hlkF] at hlt
      cases hlt
    · intro w0 hw0pc
      by_cases hw0 : w0 = w
      · subst w0
        rw [hact] at hw0pc
        simp at hw0pc
      · rw [hpas w0 hw0] at hw0pc ⊢
        rw [hdebitOf (!w0)]
        exact hded w0 hw0pc
    · intro w0
      by_cases hw0 : w0 = w
      · subst w0
        rw [hact]
        simp [hresnone]
      · rw [hpas w0 hw0]
        exact hresIff w0
    · intro w0 e he
      by_cases hw0 : w0 = w
      · subst w0
        rw [hact] at he
        have he2 : (st.threads w).result = some (Except.error e) := he
        rw [hresnone] at he2
        exact Option.noConfusion he2
      · rw [hpas w0 hw0] at he
        exact herr w0 e he
    · intro w0 hl
      by_cases hw0 : w0 = w
      · subst w0
        rw [hact] at hl
        have he2 : isLockedResult (st.threads w).result = true := hl
        rw [hresnone] at he2
        simp [isLockedResult] at he2
      · rw [hpas w0 hw0] at hl
        have hold := hlockedP w0 hl
        have hww : (!w0) = w := by
          rw [bool_eq_not_of_ne hw0]
          simp
        rw [hww] at hold
        rcases hold with h | h | h
        · rw [hpc] at h
          simp at h
        · rw [hpc] at h
          simp at h
        · simp [debited, hpc, hresnone, isOkResult] at h
    · intro w0 hl
      by_cases hw0 : w0 = w
      · subst w0
        rw [hact] at hl
        have he2 : isInsufResult (st.threads w).result = true := hl
        rw [hresnone] at he2
        simp [isInsufResult] at he2
      · rw [hpas w0 hw0] at hl
        have hold := hinsufP w0 hl
        have hww : (!w0) = w := by
          rw [bool_eq_not_of_ne hw0]
          simp
        rw [hww] at hold
        simp [debited, hpc, hresnone, isOkResult] at hold
    · rw [hdeb true, hdeb false]
      exact hnotBoth

/-- A finished call with an error result has not debited. -/
theorem debited_false_of_error (t : ThreadState) (e : PyError)
    (hr : t.result = some (Except.error e))
    (hp : t.pc = PC.unlock ∨ t.pc = PC.done) : debited t = false := by
  rcases hp with h | h <;> simp [debited, h, isOkResult, hr]

/-- Shape of a `TransactionLocked` result. -/
theorem locked_result_elim (r : Option (Except PyError Transaction))
    (h : isLockedResult r = true) :
    ∃ i, r = some (Except.error (PyError.txError (TxError.transactionLocked i))) := by
  cases r with
  | none => simp [isLockedResult] at h
  | some x =>
    cases x with
    | ok tx => simp [isLockedResult] at h
    | error e =>
      cases e with
      | attributeError => simp [isLockedResult] at h
      | txError te =>
        cases te with
        | transactionLocked i => exact ⟨i, rfl⟩
        | homelessNotFound q => simp [isLockedResult] at h
        | storeNotFound q => simp [isLockedResult] at h
        | homelessInactive i => simp [isLockedResult] at h
        | storeInactive i => simp [isLockedResult] at h
        | productInactive i => simp [isLockedResult] at h
        | insufficientBalance a b => simp [isLockedResult] at h

/-- Shape of an `InsufficientBalance` result. -/
theorem insuf_result_elim (r : Option (Except PyError Transaction))
    (h : isInsufResult r = true) :
    ∃ a b, r = some (Except.error (PyError.txError (TxError.insufficientBalance a b))) := by
  cases r with
  | none => simp [isInsufResult] at h
  | some x =>
    cases x with
    | ok tx => simp [isInsufResult] at h
    | error e =>
      cases e with
      | attributeError => simp [isInsufResult] at h
      | txError te =>
        cases te with
        | insufficientBalance a b => exact ⟨a, b, rfl⟩
        | homelessNotFound q => simp [isInsufResult] at h
        | storeNotFound q => simp [isInsufResult] at h
        | homelessInactive i => simp [isInsufResult] at h
        | storeInactive i => simp [isInsufResult] at h
        | productInactive i => simp [isInsufResult] at h
        | transactionLocked i => simp [isInsufResult] at h

/-- Invariant preservation for a step at `reread` (the locked re-read plus
balance check). -/
theorem step_inv_reread (sc : Scenario) (hsc : sc.amountsOk) (st : CState)
    (hinv : TwoCallInv sc st) (w : Bool)
    (hpc : (st.threads w).pc = PC.reread) :
    TwoCallInv sc (cstep w st) := by
  obtain ⟨hqr, hsqr, ⟨h0, hh0, hid0, hst0, hb0⟩, ⟨s0, hs0, hsid0, hss0⟩,
    hreqs, hhloc, hsloc, hlockIff, hmutex, hded, hresIff, herr, hlockedP,
    hinsufP, hnotBoth⟩ := hinv
  obtain ⟨hpos, hle, hjoint⟩ := hsc
  have hresnone : (st.threads w).result = none := by
    by_contra hne
    have h2 := (hresIff w).1 hne
    rw [hpc] at h2
    simp at h2
  obtain ⟨hh, hhom, hhid⟩ := hhloc w (by rw [hpc]; rfl)
  obtain ⟨ssb, hsb, hsbid⟩ := hsloc w (by rw [hpc]; rfl)
  have hamt : (st.threads w).req.amount = sc.amt w := by rw [hreqs w]; rfl
  have hdebw : debited (st.threads w) = false := by
    simp [debited, hpc, hresnone, isOkResult]
  have hdw0 : debitOf sc st w = 0 := by simp [debitOf, hdebw]
  have hsum : debitOf sc st true + debitOf sc st false =
      debitOf sc st w + debitOf sc st (!w) := by
    cases w <;> simp [Bool.not_true, Bool.not_false] <;> omega
  have hread : HomelessPersonRepository.get_by_id st.db hh.id = some h0 := by
    rw [hhid]
    exact hh0
  by_cases hneg : h0.balance - (st.threads w).req.amount < 0
  · -- the balance no longer suffices: fail InsufficientBalance
    have hdebOther : debited (st.threads (!w)) = true := by
      by_contra hdo
      have hdof : debited (st.threads (!w)) = false := by
        cases h2 : debited (st.threads (!w))
        · rfl
        · exact absurd h2 hdo
      have hdoOther : debitOf sc st (!w) = 0 := by simp [debitOf, hdof]
      have hba := hle w
      rw [hamt] at hneg
      omega
    have hstep : threadStep st.db (st.threads w) =
        (st.db, { st.threads w with homeless := some h0, balance_before := h0.balance, balance_after := h0.balance - (st.threads w).req.amount, pc := PC.unlock, result := some (Except.error (PyError.txError (TxError.insufficientBalance h0.balance (st.threads w).req.amount))) }) := by
      unfold threadStep
      rw [hpc, hhom]
      simp [hread, hneg, hhom]
    have hdb2 : (cstep w st).db = st.db := by rw [cstep_db, hstep]
    have hact : (cstep w st).threads w =
        { st.threads w with homeless := some h0, balance_before := h0.balance, balance_after := h0.balance - (st.threads w).req.amount, pc := PC.unlock, result := some (Except.error (PyError.txError (TxError.insufficientBalance h0.balance (st.threads w).req.amount))) } := by
      rw [cstep_threads_active, hstep]
    have hpas : ∀ w0, w0 ≠ w → (cstep w st).threads w0 = st.threads w0 :=
      fun w0 h => cstep_threads_passive w w0 st h
    have hdeb : ∀ w0,
        debited ((cstep w st).threads w0) = debited (st.threads w0) := by
      intro w0
      by_cases hw0 : w0 = w
      · subst w0
        rw [hact]
        simp [debited, hpc, hresnone, isOkResult]
      · rw [hpas w0 hw0]
    have hdebitOf : ∀ w0, debitOf sc (cstep w st) w0 = debitOf sc st w0 := by
      intro w0
      unfold debitOf
      rw [hdeb w0]
    have hcrit : ∀ w0,
        inCrit ((cstep w st).threads w0).pc = inCrit (st.threads w0).pc := by
      intro w0
      by_cases hw0 : w0 = w
      · subst w0
        rw [hact, hpc]
        simp [inCrit]
      · rw [hpas w0 hw0]
    refine ⟨by rw [hdb2]; exact hqr, by rw [hdb2]; exact hsqr,
      ⟨h0, by rw [hdb2]; exact hh0, hid0, hst0,
        by rw [hdebitOf true, hdebitOf false]; exact hb0⟩,
      ⟨s0, by rw [hdb2]; exact hs0, hsid0, hss0⟩, ?_, ?_, ?_, ?_, ?_, ?_, ?_,
      ?_, ?_, ?_, ?_⟩
    · intro w0
      by_cases hw0 : w0 = w
      · subst w0
        rw [hact]
        exact hreqs w
      · rw [hpas w0 hw0]
        exact hreqs w0
    · intro w0 hw0p
      by_cases hw0 : w0 = w
      · subst w0
        rw [hact]
        exact ⟨h0, rfl, hid0⟩
      · rw [hpas w0 hw0] at hw0p ⊢
        exact hhloc w0 hw0p
    · intro w0 hw0p
      by_cases hw0 : w0 = w
      · subst w0
        rw [hact]
        exact ⟨ssb, hsb, hsbid⟩
      · rw [hpas w0 hw0] at hw0p ⊢
        exact hsloc w0 hw0p
    · rw [hdb2, hcrit true, hcrit false]
      exact hlockIff
    · rw [hcrit true, hcrit false]
      exact hmutex
    · intro w0 hw0pc
      by_cases hw0 : w0 = w
      · subst w0
        rw [hact] at hw0pc
        simp at hw0pc
      · rw [hpas w0 hw0] at hw0pc ⊢
        rw [hdebitOf (!w0)]
        exact hded w0 hw0pc
    · intro w0
      by_cases hw0 : w0 = w
      · subst w0
        rw [hact]
        simp
      · rw [hpas w0 hw0]
        exact hresIff w0
    · intro w0 e he
      by_cases hw0 : w0 = w
      · subst w0
        rw [hact] at he
        have he2 : some (Except.error (PyError.txError (TxError.insufficientBalance h0.balance (st.threads w).req.amount))) = some (Except.error e) := he
        injection he2 with he3
        injection he3 with he4
        rw [← he4]
        rfl
      · rw [hpas w0 hw0] at he
        exact herr w0 e he
    · intro w0 hl
      by_cases hw0 : w0 = w
      · subst w0
        rw [hact] at hl
        have he2 : isLockedResult (some (Except.error (PyError.txError (TxError.insufficientBalance h0.balance (st.threads w).req.amount)))) = true := hl
        simp [isLockedResult] at he2
      · rw [hpas w0 hw0] at hl
        obtain ⟨i, hri⟩ := locked_result_elim _ hl
        have hdf := debited_false_of_error (st.threads w0) _ hri
          ((hresIff w0).1 (by rw [hri]; simp))
        rw [bool_eq_not_of_ne hw0] at hdf
        rw [hdebOther] at hdf
        cases hdf
    · intro w0 hl
      by_cases hw0 : w0 = w
      · subst w0
        have hww : (!w) ≠ w := by cases w <;> simp
        rw [hpas (!w) hww]
        exact hdebOther
      · rw [hpas w0 hw0] at hl
        have hold := hinsufP w0 hl
        have hww : (!w0) = w := by
          rw [bool_eq_not_of_ne hw0]
          simp
        rw [hww] at hold
        simp [debited, hpc, hresnone, isOkResult] at hold
    · rw [hdeb true, hdeb false]
      exact hnotBoth
  · -- the balance still suffices: move to the deduct step
    have hstep : threadStep st.db (st.threads w) =
        (st.db, { st.threads w with homeless := some h0, balance_before := h0.balance, balance_after := h0.balance - (st.threads w).req.amount, pc := PC.deduct }) := by
      unfold threadStep
      rw [hpc, hhom]
      simp [hread, hneg, hhom]
    have hdb2 : (cstep w st).db = st.db := by rw [cstep_db, hstep]
    have hact : (cstep w st).threads w =
        { st.threads w with homeless := some h0, balance_before := h0.balance, balance_after := h0.balance - (st.threads w).req.amount, pc := PC.deduct } := by
      rw [cstep_threads_active, hstep]
    have hpas : ∀ w0, w0 ≠ w → (cstep w st).threads w0 = st.threads w0 :=
      fun w0 h => cstep_threads_passive w w0 st h
    have hdeb : ∀ w0,
        debited ((cstep w st).threads w0) = debited (st.threads w0) := by
      intro w0
      by_cases hw0 : w0 = w
      · subst w0
        rw [hact]
        simp [debited, hpc, hresnone, isOkResult]
      · rw [hpas w0 hw0]
    have hdebitOf : ∀ w0, debitOf sc (cstep w st) w0 = debitOf sc st w0 := by
      intro w0
      unfold debitOf
      rw [hdeb w0]
    have hcrit : ∀ w0,
        inCrit ((cstep w st).threads w0).pc = inCrit (st.threads w0).pc := by
      intro w0
      by_cases hw0 : w0 = w
      · subst w0
        rw [hact, hpc]
        simp [inCrit]
      · rw [hpas w0 hw0]
    refine ⟨by rw [hdb2]; exact hqr, by rw [hdb2]; exact hsqr,
      ⟨h0, by rw [hdb2]; exact hh0, hid0, hst0,
        by rw [hdebitOf true, hdebitOf false]; exact hb0⟩,
      ⟨s0, by rw [hdb2]; exact hs0, hsid0, hss0⟩, ?_, ?_, ?_, ?_, ?_, ?_, ?_,
      ?_, ?_, ?_, ?_⟩
    · intro w0
      by_cases hw0 : w0 = w
      · subst w0
        rw [hact]
        exact hreqs w
      · rw [hpas w0 hw0]
        exact hreqs w0
    · intro w0 hw0p
      by_cases hw0 : w0 = w
      · subst w0
        rw [hact]
        exact ⟨h0, rfl, hid0⟩
      · rw [hpas w0 hw0] at hw0p ⊢
        exact hhloc w0 hw0p
    · intro w0 hw0p
      by_cases hw0 : w0 = w
      · subst w0
        rw [hact]
        exact ⟨ssb, hsb, hsbid⟩
      · rw [hpas w0 hw0] at hw0p ⊢
        exact hsloc w0 hw0p
    · rw [hdb2, hcrit true, hcrit false]
      exact hlockIff
    · rw [hcrit true, hcrit false]
      exact hmutex
    · intro w0 hw0pc
      by_cases hw0 : w0 = w
      · subst w0
        rw [hact]
        rw [hdebitOf (!w)]
        refine ⟨?_, ?_, ?_⟩
        · show h0.balance = sc.B - debitOf sc st (!w)
          omega
        · show h0.balance - (st.threads w).req.amount =
            h0.balance - sc.amt w
          rw [hamt]
        · show 0 ≤ h0.balance - (st.threads w).req.amount
          omega
      · rw [hpas w0 hw0] at hw0pc ⊢
        rw [hdebitOf (!w0)]
        exact hded w0 hw0pc
    · intro w0
      by_cases hw0 : w0 = w
      · subst w0
        rw [hact]
        simp [hresnone]
      · rw [hpas w0 hw0]
        exact hresIff w0
    · intro w0 e he
      by_cases hw0 : w0 = w
      · subst w0
        rw [hact] at he
        have he2 : (st.threads w).result = some (Except.error e) := he
        rw [hresnone] at he2
        exact Option.noConfusion he2
      · rw [hpas w0 hw0] at he
        exact herr w0 e he
    · intro w0 hl
      by_cases hw0 : w0 = w
      · subst w0
        rw [hact] at hl
        have he2 : isLockedResult (st.threads w).result = true := hl
        rw [hresnone] at he2
        simp [isLockedResult] at he2
      · rw [hpas w0 hw0] at hl
        have hww : (!w0) = w := by
          rw [bool_eq_not_of_ne hw0]
          simp
        rw [hww]
        right
        left
        rw [hact]
    · intro w0 hl
      by_cases hw0 : w0 = w
      · subst w0
        rw [hact] at hl
        have he2 : isInsufResult (st.threads w).result = true := hl
        rw [hresnone] at he2
        simp [isInsufResult] at he2
      · rw [hpas w0 hw0] at hl
        have hold := hinsufP w0 hl
        have hww : (!w0) = w := by
          rw [bool_eq_not_of_ne hw0]
          simp
        rw [hww] at hold
        simp [debited, hpc, hresnone, isOkResult] at hold
    · rw [hdeb true, hdeb false]
      exact hnotBoth

/-- Invariant preservation for a step at `deduct` (the `update_balance`
write). -/
theorem step_inv_deduct (sc : Scenario) (hsc : sc.amountsOk) (st : CState)
    (hinv : TwoCallInv sc st) (w : Bool)
    (hpc : (st.threads w).pc = PC.deduct) :
    TwoCallInv sc (cstep w st) := by
  obtain ⟨hqr, hsqr, ⟨h0, hh0, hid0, hst0, hb0⟩, ⟨s0, hs0, hsid0, hss0⟩,
    hreqs, hhloc, hsloc, hlockIff, hmutex, hded, hresIff, herr, hlockedP,
    hinsufP, hnotBoth⟩ := hinv
  obtain ⟨hpos, hle, hjoint⟩ := hsc
  have hresnone : (st.threads w).result = none := by
    by_contra hne
    have h2 := (hresIff w).1 hne
    rw [hpc] at h2
    simp at h2
  obtain ⟨hh, hhom, hhid⟩ := hhloc w (by rw [hpc]; rfl)
  obtain ⟨ssb, hsb, hsbid⟩ := hsloc w (by rw [hpc]; rfl)
  obtain ⟨hbb, hba, hba0⟩ := hded w hpc
  have hdebw : debited (st.threads w) = false := by
    simp [debited, hpc, hresnone, isOkResult]
  have hdw0 : debitOf sc st w = 0 := by simp [debitOf, hdebw]
  have hsum : debitOf sc st true + debitOf sc st false =
      debitOf sc st w + debitOf sc st (!w) := by
    cases w <;> simp [Bool.not_true, Bool.not_false] <;> omega
  have hdoF : debited (st.threads (!w)) = false := by
    by_contra hdo
    have hdoT : debited (st.threads (!w)) = true := by
      cases h2 : debited (st.threads (!w))
      · exact absurd h2 hdo
      · rfl
    have hdOther : debitOf sc st (!w) = sc.amt (!w) := by
      simp [debitOf, hdoT]
    have hj2 : sc.B < sc.amt w + sc.amt (!w) := by
      cases w <;> simp [Bool.not_true, Bool.not_false] <;> omega
    omega
  have hread : st.db.homeless hh.id = some h0 := by
    rw [hhid]
    exact hh0
  have hupd : HomelessPersonRepository.update_balance st.db hh.id
      (st.threads w).balance_after =
      ({ st.db with homeless := fun j => if j = hh.id then some { h0 with balance := (st.threads w).balance_after } else st.db.homeless j, events := st.db.events ++ [Event.balanceUpdate hh.id (st.threads w).balance_after] }, true) := by
    unfold HomelessPersonRepository.update_balance
    rw [hread]
  have hstep : threadStep st.db (st.threads w) =
      ({ st.db with homeless := fun j => if j = hh.id then some { h0 with balance := (st.threads w).balance_after } else st.db.homeless j, events := st.db.events ++ [Event.balanceUpdate hh.id (st.threads w).balance_after] }, { st.threads w with pc := PC.credit }) := by
    unfold threadStep
    rw [hpc, hhom]
    simp only [hupd, hhom]
  have hdb2 : (cstep w st).db =
      { st.db with homeless := fun j => if j = hh.id then some { h0 with balance := (st.threads w).balance_after } else st.db.homeless j, events := st.db.events ++ [Event.balanceUpdate hh.id (st.threads w).balance_after] } := by
    rw [cstep_db, hstep]
  have hact : (cstep w st).threads w = { st.threads w with pc := PC.credit } := by
    rw [cstep_threads_active, hstep]
  have hpas : ∀ w0, w0 ≠ w → (cstep w st).threads w0 = st.threads w0 :=
    fun w0 h => cstep_threads_passive w w0 st h
  have hdebAct : debited ((cstep w st).threads w) = true := by
    rw [hact]
    simp [debited]
  have hdOf : ∀ w0, w0 ≠ w →
      debitOf sc (cstep w st) w0 = debitOf sc st w0 := by
    intro w0 hw0
    unfold debitOf
    rw [hpas w0 hw0]
  have hdOfw : debitOf sc (cstep w st) w = sc.amt w := by
    simp [debitOf, hdebAct]
  have hcrit : ∀ w0,
      inCrit ((cstep w st).threads w0).pc = inCrit (st.threads w0).pc := by
    intro w0
    by_cases hw0 : w0 = w
    · subst w0
      rw [hact, hpc]
      simp [inCrit]
    · rw [hpas w0 hw0]
  refine ⟨by rw [hdb2]; exact hqr, by rw [hdb2]; exact hsqr, ?_,
    ⟨s0, by rw [hdb2]; exact hs0, hsid0, hss0⟩, ?_, ?_, ?_, ?_, ?_, ?_, ?_,
    ?_, ?_, ?_, ?_⟩
  · refine ⟨{ h0 with balance := (st.threads w).balance_after }, ?_, hid0,
      hst0, ?_⟩
    · rw [hdb2]
      show (if sc.hid = hh.id then some { h0 with balance := (st.threads w).balance_after } else st.db.homeless sc.hid) = _
      rw [if_pos hhid.symm]
    · show (st.threads w).balance_after =
        sc.B - debitOf sc (cstep w st) true - debitOf sc (cstep w st) false
      have hsum2 : debitOf sc (cstep w st) true + debitOf sc (cstep w st) false =
          debitOf sc (cstep w st) w + debitOf sc (cstep w st) (!w) := by
        cases w <;> simp [Bool.not_true, Bool.not_false] <;> omega
      have hdOfO : debitOf sc (cstep w st) (!w) = debitOf sc st (!w) :=
        hdOf (!w) (by cases w <;> simp)
      omega
  · intro w0
    by_cases hw0 : w0 = w
    · subst w0
      rw [hact]
      exact hreqs w
    · rw [hpas w0 hw0]
      exact hreqs w0
  · intro w0 hw0p
    by_cases hw0 : w0 = w
    · subst w0
      rw [hact]
      exact ⟨hh, hhom, hhid⟩
    · rw [hpas w0 hw0] at hw0p ⊢
      exact hhloc w0 hw0p
  · intro w0 hw0p
    by_cases hw0 : w0 = w
    · subst w0
      rw [hact]
      exact ⟨ssb, hsb, hsbid⟩
    · rw [hpas w0 hw0] at hw0p ⊢
      exact hsloc w0 hw0p
  · rw [hdb2, hcrit true, hcrit false]
    exact hlockIff
  · rw [hcrit true, hcrit false]
    exact hmutex
  · intro w0 hw0pc
    by_cases hw0 : w0 = w
    · subst w0
      rw [hact] at hw0pc
      simp at hw0pc
    · rw [hpas w0 hw0] at hw0pc
      have hcw : inCrit (st.threads w).pc = true := by rw [hpc]; rfl
      have hcw0 : inCrit (st.threads w0).pc = true := by rw [hw0pc]; rfl
      exact absurd (by cases w <;> cases w0 <;> simp_all) hmutex
  · intro w0
    by_cases hw0 : w0 = w
    · subst w0
      rw [hact]
      simp [hresnone]
    · rw [hpas w0 hw0]
      exact hresIff w0
  · intro w0 e he
    by_cases hw0 : w0 = w
    · subst w0
      rw [hact] at he
      have he2 : (st.threads w).result = some (Except.error e) := he
      rw [hresnone] at he2
      exact Option.noConfusion he2
    · rw [hpas w0 hw0] at he
      exact herr w0 e he
  · intro w0 hl
    by_cases hw0 : w0 = w
    · subst w0
      rw [hact] at hl
      have he2 : isLockedResult (st.threads w).result = true := hl
      rw [hresnone] at he2
      simp [isLockedResult] at he2
    · rw [hpas w0 hw0] at hl
      have hww : (!w0) = w := by
        rw [bool_eq_not_of_ne hw0]
        simp
      rw [hww]
      exact Or.inr (Or.inr hdebAct)
  · intro w0 hl
    by_cases hw0 : w0 = w
    · subst w0
      rw [hact] at hl
      have he2 : isInsufResult (st.threads w).result = true := hl
      rw [hresnone] at he2
      simp [isInsufResult] at he2
    · rw [hpas w0 hw0] at hl
      have hold := hinsufP w0 hl
      have hww : (!w0) = w := by
        rw [bool_eq_not_of_ne hw0]
        simp
      rw [hww] at hold
      simp [debited, hpc, hresnone, isOkResult] at hold
  · intro hboth
    have hp : debited ((cstep w st).threads (!w)) = true := by
      cases w
      · exact hboth.1
      · exact hboth.2
    rw [hpas (!w) (by cases w <;> simp)] at hp
    rw [hdoF] at hp
    cases hp

/-- Invariant preservation for a step at `credit` (the `update_income`
write). -/
theorem step_inv_credit (sc : Scenario) (st : CState)
    (hinv : TwoCallInv sc st) (w : Bool)
    (hpc : (st.threads w).pc = PC.credit) :
    TwoCallInv sc (cstep w st) := by
  obtain ⟨hqr, hsqr, ⟨h0, hh0, hid0, hst0, hb0⟩, ⟨s0, hs0, hsid0, hss0⟩,
    hreqs, hhloc, hsloc, hlockIff, hmutex, hded, hresIff, herr, hlockedP,
    hinsufP, hnotBoth⟩ := hinv
  have hresnone : (st.threads w).result = none := by
    by_contra hne
    have h2 := (hresIff w).1 hne
    rw [hpc] at h2
    simp at h2
  obtain ⟨hh, hhom, hhid⟩ := hhloc w (by rw [hpc]; rfl)
  obtain ⟨ssb, hsb, hsbid⟩ := hsloc w (by rw [hpc]; rfl)
  have hdebwT : debited (st.threads w) = true := by
    simp [debited, hpc]
  have hreadS : st.db.stores ssb.id = some s0 := by
    rw [hsbid]
    exact hs0
  have hupdI : StoreRepository.update_income st.db ssb.id
      (st.threads w).req.amount =
      ({ st.db with stores := fun j => if j = ssb.id then some { s0 with total_income := s0.total_income + (st.threads w).req.amount } else st.db.stores j, events := st.db.events ++ [Event.incomeIncr ssb.id (st.threads w).req.amount] }, true) := by
    unfold StoreRepository.update_income
    rw [hreadS]
  have hstep : threadStep st.db (st.threads w) =
      ({ st.db with stores := fun j => if j = ssb.id then some { s0 with total_income := s0.total_income + (st.threads w).req.amount } else st.db.stores j, events := st.db.events ++ [Event.incomeIncr ssb.id (st.threads w).req.amount] }, { st.threads w with pc := PC.writeTx }) := by
    unfold threadStep
    rw [hpc, hsb]
    simp only [hupdI, hsb]
  have hdb2 : (cstep w st).db =
      { st.db with stores := fun j => if j = ssb.id then some { s0 with total_income := s0.total_income + (st.threads w).req.amount } else st.db.stores j, events := st.db.events ++ [Event.incomeIncr ssb.id (st.threads w).req.amount] } := by
    rw [cstep_db, hstep]
  have hact : (cstep w st).threads w =
      { st.threads w with pc := PC.writeTx } := by
    rw [cstep_threads_active, hstep]
  have hpas : ∀ w0, w0 ≠ w → (cstep w st).threads w0 = st.threads w0 :=
    fun w0 h => cstep_threads_passive w w0 st h
  have hdeb : ∀ w0,
      debited ((cstep w st).threads w0) = debited (st.threads w0) := by
    intro w0
    by_cases hw0 : w0 = w
    · subst w0
      rw [hact, hdebwT]
      simp [debited]
    · rw [hpas w0 hw0]
  have hdebitOf : ∀ w0, debitOf sc (cstep w st) w0 = debitOf sc st w0 := by
    intro w0
    unfold debitOf
    rw [hdeb w0]
  have hcrit : ∀ w0,
      inCrit ((cstep w st).threads w0).pc = inCrit (st.threads w0).pc := by
    intro w0
    by_cases hw0 : w0 = w
    · subst w0
      rw [hact, hpc]
      simp [inCrit]
    · rw [hpas w0 hw0]
  refine ⟨by rw [hdb2]; exact hqr, by rw [hdb2]; exact hsqr,
    ⟨h0, by rw [hdb2]; exact hh0, hid0, hst0,
      by rw [hdebitOf true, hdebitOf false]; exact hb0⟩, ?_, ?_, ?_, ?_, ?_,
    ?_, ?_, ?_, ?_, ?_, ?_, ?_⟩
  · refine ⟨{ s0 with total_income := s0.total_income + (st.threads w).req.amount }, ?_, hsid0, hss0⟩
    rw [hdb2]
    show (if sc.sid = ssb.id then some { s0 with total_income := s0.total_income + (st.threads w).req.amount } else st.db.stores sc.sid) = _
    rw [if_pos hsbid.symm]
  · intro w0
    by_cases hw0 : w0 = w
    · subst w0
      rw [hact]
      exact hreqs w
    · rw [hpas w0 hw0]
      exact hreqs w0
  · intro w0 hw0p
    by_cases hw0 : w0 = w
    · subst w0
      rw [hact]
      exact ⟨hh, hhom, hhid⟩
    · rw [hpas w0 hw0] at hw0p ⊢
      exact hhloc w0 hw0p
  · intro w0 hw0p
    by_cases hw0 : w0 = w
    · subst w0
      rw [hact]
      exact ⟨ssb, hsb, hsbid⟩
    · rw [hpas w0 hw0] at hw0p ⊢
      exact hsloc w0 hw0p
  · rw [hdb2, hcrit true, hcrit false]
    exact hlockIff
  · rw [hcrit true, hcrit false]
    exact hmutex
  · intro w0 hw0pc
    by_cases hw0 : w0 = w
    · subst w0
      rw [hact] at hw0pc
      simp at hw0pc
    · rw [hpas w0 hw0] at hw0pc
      have hcw : inCrit (st.threads w).pc = true := by rw [hpc]; rfl
      have hcw0 : inCrit (st.threads w0).pc = true := by rw [hw0pc]; rfl
      exact absurd (by cases w <;> cases w0 <;> simp_all) hmutex
  · intro w0
    by_cases hw0 : w0 = w
    · subst w0
      rw [hact]
      simp [hresnone]
    · rw [hpas w0 hw0]
      exact hresIff w0
  · intro w0 e he
    by_cases hw0 : w0 = w
    · subst w0
      rw [hact] at he
      have he2 : (st.threads w).result = some (Except.error e) := he
      rw [hresnone] at he2
      exact Option.noConfusion he2
    · rw [hpas w0 hw0] at he
      exact herr w0 e he
  · intro w0 hl
    by_cases hw0 : w0 = w
    · subst w0
      rw [hact] at hl
      have he2 : isLockedResult (st.threads w).result = true := hl
      rw [hresnone] at he2
      simp [isLockedResult] at he2
    · rw [hpas w0 hw0] at hl
      have hww : (!w0) = w := by
        rw [bool_eq_not_of_ne hw0]
        simp
      rw [hww]
      refine Or.inr (Or.inr ?_)
      rw [hact]
      simp [debited]
  · intro w0 hl
    by_cases hw0 : w0 = w
    · subst w0
      rw [hact] at hl
      have he2 : isInsufResult (st.threads w).result = true := hl
      rw [hresnone] at he2
      simp [isInsufResult] at he2
    · rw [hpas w0 hw0] at hl
      have hww : (!w0) = w := by
        rw [bool_eq_not_of_ne hw0]
        simp
      rw [hww]
      rw [hact]
      simp [debited]
  · rw [hdeb true, hdeb false]
    exact hnotBoth

/-- Invariant preservation for a step at `writeTx` (the ledger write that
also fixes the ok result). -/
theorem step_inv_writeTx (sc : Scenario) (st : CState)
    (hinv : TwoCallInv sc st) (w : Bool)
    (hpc : (st.threads w).pc = PC.writeTx) :
    TwoCallInv sc (cstep w st) := by
  obtain ⟨hqr, hsqr, ⟨h0, hh0, hid0, hst0, hb0⟩, ⟨s0, hs0, hsid0, hss0⟩,
    hreqs, hhloc, hsloc, hlockIff, hmutex, hded, hresIff, herr, hlockedP,
    hinsufP, hnotBoth⟩ := hinv
  have hresnone : (st.threads w).result = none := by
    by_contra hne
    have h2 := (hresIff w).1 hne
    rw [hpc] at h2
    simp at h2
  obtain ⟨hh, hhom, hhid⟩ := hhloc w (by rw [hpc]; rfl)
  obtain ⟨ssb, hsb, hsbid⟩ := hsloc w (by rw [hpc]; rfl)
  have hdebwT : debited (st.threads w) = true := by
    simp [debited, hpc]
  have hstep : threadStep st.db (st.threads w) =
      ((TransactionRepository.create st.db (st.threads w).tx_id hh.id (st.threads w).req.homeless_qr_code ssb.id (st.threads w).req.store_qr_code (st.threads w).req.product_name (st.threads w).req.amount (st.threads w).balance_before (st.threads w).balance_after TransactionStatus.completed (st.threads w).req.product_id).1, { st.threads w with pc := PC.unlock, result := some (Except.ok (TransactionRepository.create st.db (st.threads w).tx_id hh.id (st.threads w).req.homeless_qr_code ssb.id (st.threads w).req.store_qr_code (st.threads w).req.product_name (st.threads w).req.amount (st.threads w).balance_before (st.threads w).balance_after TransactionStatus.completed (st.threads w).req.product_id).2) }) := by
    unfold threadStep
    rw [hpc]
    simp [hhom, hsb]
  have hdb2 : (cstep w st).db =
      (TransactionRepository.create st.db (st.threads w).tx_id hh.id (st.threads w).req.homeless_qr_code ssb.id (st.threads w).req.store_qr_code (st.threads w).req.product_name (st.threads w).req.amount (st.threads w).balance_before (st.threads w).balance_after TransactionStatus.completed (st.threads w).req.product_id).1 := by
    rw [cstep_db, hstep]
  have hact : (cstep w st).threads w =
      { st.threads w with pc := PC.unlock, result := some (Except.ok (TransactionRepository.create st.db (st.threads w).tx_id hh.id (st.threads w).req.homeless_qr_code ssb.id (st.threads w).req.store_qr_code (st.threads w).req.product_name (st.threads w).req.amount (st.threads w).balance_before (st.threads w).balance_after TransactionStatus.completed (st.threads w).req.product_id).2) } := by
    rw [cstep_threads_active, hstep]
  have hpas : ∀ w0, w0 ≠ w → (cstep w st).threads w0 = st.threads w0 :=
    fun w0 h => cstep_threads_passive w w0 st h
  have hdeb : ∀ w0,
      debited ((cstep w st).threads w0) = debited (st.threads w0) := by
    intro w0
    by_cases hw0 : w0 = w
    · subst w0
      rw [hact, hdebwT]
      simp [debited, isOkResult]
    · rw [hpas w0 hw0]
  have hdebitOf : ∀ w0, debitOf sc (cstep w st) w0 = debitOf sc st w0 := by
    intro w0
    unfold debitOf
    rw [hdeb w0]
  have hcrit : ∀ w0,
      inCrit ((cstep w st).threads w0).pc = inCrit (st.threads w0).pc := by
    intro w0
    by_cases hw0 : w0 = w
    · subst w0
      rw [hact, hpc]
      simp [inCrit]
    · rw [hpas w0 hw0]
  refine ⟨by rw [hdb2]; exact hqr, by rw [hdb2]; exact hsqr,
    ⟨h0, by rw [hdb2]; exact hh0, hid0, hst0,
      by rw [hdebitOf true, hdebitOf false]; exact hb0⟩,
    ⟨s0, by rw [hdb2]; exact hs0, hsid0, hss0⟩, ?_, ?_, ?_, ?_, ?_, ?_, ?_,
    ?_, ?_, ?_, ?_⟩
  · intro w0
    by_cases hw0 : w0 = w
    · subst w0
      rw [hact]
      exact hreqs w
    · rw [hpas w0 hw0]
      exact hreqs w0
  · intro w0 hw0p
    by_cases hw0 : w0 = w
    · subst w0
      rw [hact]
      exact ⟨hh, hhom, hhid⟩
    · rw [hpas w0 hw0] at hw0p ⊢
      exact hhloc w0 hw0p
  · intro w0 hw0p
    by_cases hw0 : w0 = w
    · subst w0
      rw [hact]
      exact ⟨ssb, hsb, hsbid⟩
    · rw [hpas w0 hw0] at hw0p ⊢
      exact hsloc w0 hw0p
  · rw [hdb2, hcrit true, hcrit false]
    exact hlockIff
  · rw [hcrit true, hcrit false]
    exact hmutex
  · intro w0 hw0pc
    by_cases hw0 : w0 = w
    · subst w0
      rw [hact] at hw0pc
      simp at hw0pc
    · rw [hpas w0 hw0] at hw0pc
      have hcw : inCrit (st.threads w).pc = true := by rw [hpc]; rfl
      have hcw0 : inCrit (st.threads w0).pc = true := by rw [hw0pc]; rfl
      exact absurd (by cases w <;> cases w0 <;> simp_all) hmutex
  · intro w0
    by_cases hw0 : w0 = w
    · subst w0
      rw [hact]
      simp
    · rw [hpas w0 hw0]
      exact hresIff w0
  · intro w0 e he
    by_cases hw0 : w0 = w
    · subst w0
      rw [hact] at he
      have he2 : some (Except.ok (TransactionRepository.create st.db (st.threads w).tx_id hh.id (st.threads w).req.homeless_qr_code ssb.id (st.threads w).req.store_qr_code (st.threads w).req.product_name (st.threads w).req.amount (st.threads w).balance_before (st.threads w).balance_after TransactionStatus.completed (st.threads w).req.product_id).2) = some (Except.error e) := he
      injection he2 with he3
      exact Except.noConfusion he3
    · rw [hpas w0 hw0] at he
      exact herr w0 e he
  · intro w0 hl
    by_cases hw0 : w0 = w
    · subst w0
      rw [hact] at hl
      have he2 : isLockedResult (some (Except.ok (TransactionRepository.create st.db (st.threads w).tx_id hh.id (st.threads w).req.homeless_qr_code ssb.id (st.threads w).req.store_qr_code (st.threads w).req.product_name (st.threads w).req.amount (st.threads w).balance_before (st.threads w).balance_after TransactionStatus.completed (st.threads w).req.product_id).2)) = true := hl
      simp [isLockedResult] at he2
    · rw [hpas w0 hw0] at hl
      have hww : (!w0) = w := by
        rw [bool_eq_not_of_ne hw0]
        simp
      rw [hww]
      refine Or.inr (Or.inr ?_)
      rw [hact]
      simp [debited, isOkResult]
  · intro w0 hl
    by_cases hw0 : w0 = w
    · subst w0
      rw [hact] at hl
      have he2 : isInsufResult (some (Except.ok (TransactionRepository.create st.db (st.threads w).tx_id hh.id (st.threads w).req.homeless_qr_code ssb.id (st.threads w).req.store_qr_code (st.threads w).req.product_name (st.threads w).req.amount (st.threads w).balance_before (st.threads w).balance_after TransactionStatus.completed (st.threads w).req.product_id).2)) = true := hl
      simp [isInsufResult] at he2
    · rw [hpas w0 hw0] at hl
      have hww : (!w0) = w := by
        rw [bool_eq_not_of_ne hw0]
        simp
      rw [hww]
      rw [hact]
      simp [debited, isOkResult]
  · rw [hdeb true, hdeb false]
    exact hnotBoth

/-- Invariant preservation for a step at `unlock` (the `finally` block's
`release_lock`). -/
theorem step_inv_unlock (sc : Scenario) (st : CState)
    (hinv : TwoCallInv sc st) (w : Bool)
    (hpc : (st.threads w).pc = PC.unlock) :
    TwoCallInv sc (cstep w st) := by
  obtain ⟨hqr, hsqr, ⟨h0, hh0, hid0, hst0, hb0⟩, ⟨s0, hs0, hsid0, hss0⟩,
    hreqs, hhloc, hsloc, hlockIff, hmutex, hded, hresIff, herr, hlockedP,
    hinsufP, hnotBoth⟩ := hinv
  have hressome : (st.threads w).result ≠ none := (hresIff w).2 (Or.inl hpc)
  obtain ⟨hh, hhom, hhid⟩ := hhloc w (by rw [hpc]; rfl)
  obtain ⟨ssb, hsb, hsbid⟩ := hsloc w (by rw [hpc]; rfl)
  have hcw : inCrit (st.threads w).pc = true := by rw [hpc]; rfl
  have hpassF : inCrit (st.threads (!w)).pc = false := by
    cases hcp : inCrit (st.threads (!w)).pc
    · rfl
    · exact absurd (by cases w <;> simp_all) hmutex
  have hstep : threadStep st.db (st.threads w) =
      (HomelessPersonRepository.release_lock st.db hh.id, { st.threads w with pc := PC.done }) := by
    unfold threadStep
    rw [hpc]
    simp [hhom]
  have hdb2 : (cstep w st).db =
      HomelessPersonRepository.release_lock st.db hh.id := by
    rw [cstep_db, hstep]
  have hact : (cstep w st).threads w = { st.threads w with pc := PC.done } := by
    rw [cstep_threads_active, hstep]
  have hpas : ∀ w0, w0 ≠ w → (cstep w st).threads w0 = st.threads w0 :=
    fun w0 h => cstep_threads_passive w w0 st h
  have hdeb : ∀ w0,
      debited ((cstep w st).threads w0) = debited (st.threads w0) := by
    intro w0
    by_cases hw0 : w0 = w
    · subst w0
      rw [hact]
      simp [debited, hpc]
    · rw [hpas w0 hw0]
  have hdebitOf : ∀ w0, debitOf sc (cstep w st) w0 = debitOf sc st w0 := by
    intro w0
    unfold debitOf
    rw [hdeb w0]
  have hcritNew : ∀ b, inCrit ((cstep w st).threads b).pc = false := by
    intro b
    by_cases hb : b = w
    · subst b
      rw [hact]
      rfl
    · rw [hpas b hb, bool_eq_not_of_ne hb]
      exact hpassF
  refine ⟨by rw [hdb2]; exact hqr, by rw [hdb2]; exact hsqr,
    ⟨h0, by rw [hdb2]; exact hh0, hid0, hst0,
      by rw [hdebitOf true, hdebitOf false]; exact hb0⟩,
    ⟨s0, by rw [hdb2]; exact hs0, hsid0, hss0⟩, ?_, ?_, ?_, ?_, ?_, ?_, ?_,
    ?_, ?_, ?_, ?_⟩
  · intro w0
    by_cases hw0 : w0 = w
    · subst w0
      rw [hact]
      exact hreqs w
    · rw [hpas w0 hw0]
      exact hreqs w0
  · intro w0 hw0p
    by_cases hw0 : w0 = w
    · subst w0
      rw [hact] at hw0p
      simp [pastValidateH] at hw0p
    · rw [hpas w0 hw0] at hw0p ⊢
      exact hhloc w0 hw0p
  · intro w0 hw0p
    by_cases hw0 : w0 = w
    · subst w0
      rw [hact] at hw0p
      simp [pastValidateS] at hw0p
    · rw [hpas w0 hw0] at hw0p ⊢
      exact hsloc w0 hw0p
  · constructor
    · intro hl
      rw [hdb2] at hl
      have hl2 : (if sc.hid = hh.id then false else st.db.locks sc.hid) = true := hl
      rw [if_pos hhid.symm] at hl2
      cases hl2
    · intro hor
      rcases hor with h | h
      · rw [hcritNew true] at h
        cases h
      · rw [hcritNew false] at h
        cases h
  · intro hboth
    rw [hcritNew true] at hboth
    cases hboth.1
  · intro w0 hw0pc
    by_cases hw0 : w0 = w
    · subst w0
      rw [hact] at hw0pc
      simp at hw0pc
    · rw [hpas w0 hw0] at hw0pc
      have hcw0 : inCrit (st.threads w0).pc = true := by rw [hw0pc]; rfl
      exact absurd (by cases w <;> cases w0 <;> simp_all) hmutex
  · intro w0
    by_cases hw0 : w0 = w
    · subst w0
      rw [hact]
      simp [hressome]
    · rw [hpas w0 hw0]
      exact hresIff w0
  · intro w0 e he
    by_cases hw0 : w0 = w
    · subst w0
      rw [hact] at he
      have he2 : (st.threads w).result = some (Except.error e) := he
      exact herr w e he2
    · rw [hpas w0 hw0] at he
      exact herr w0 e he
  · intro w0 hl
    by_cases hw0 : w0 = w
    · subst w0
      rw [hact] at hl
      have hl2 : isLockedResult (st.threads w).result = true := hl
      have hold := hlockedP w hl2
      have hne : (!w) ≠ w := by cases w <;> simp
      rw [hpas (!w) hne]
      exact hold
    · rw [hpas w0 hw0] at hl
      have hold := hlockedP w0 hl
      have hww : (!w0) = w := by
        rw [bool_eq_not_of_ne hw0]
        simp
      rw [hww] at hold ⊢
      rcases hold with h | h | h
      · rw [hpc] at h
        simp at h
      · rw [hpc] at h
        simp at h
      · refine Or.inr (Or.inr ?_)
        rw [hdeb w]
        exact h
  · intro w0 hl
    by_cases hw0 : w0 = w
    · subst w0
      rw [hact] at hl
      have hl2 : isInsufResult (st.threads w).result = true := hl
      have hold := hinsufP w hl2
      have hne : (!w) ≠ w := by cases w <;> simp
      rw [hpas (!w) hne]
      exact hold
    · rw [hpas w0 hw0] at hl
      have hold := hinsufP w0 hl
      have hww : (!w0) = w := by
        rw [bool_eq_not_of_ne hw0]
        simp
      rw [hww] at hold ⊢
      rw [hdeb w]
      exact hold
  · rw [hdeb true, hdeb false]
    exact hnotBoth

/-- Invariant preservation for a step at `done` (a no-op). -/
theorem step_inv_done (sc : Scenario) (st : CState)
    (hinv : TwoCallInv sc st) (w : Bool)
    (hpc : (st.threads w).pc = PC.done) :
    TwoCallInv sc (cstep w st) := by
  obtain ⟨hqr, hsqr, ⟨h0, hh0, hid0, hst0, hb0⟩, ⟨s0, hs0, hsid0, hss0⟩,
    hreqs, hhloc, hsloc, hlockIff, hmutex, hded, hresIff, herr, hlockedP,
    hinsufP, hnotBoth⟩ := hinv
  have hstep : threadStep st.db (st.threads w) = (st.db, st.threads w) := by
    unfold threadStep
    rw [hpc]
  have hdb2 : (cstep w st).db = st.db := by rw [cstep_db, hstep]
  have hth : ∀ w0, (cstep w st).threads w0 = st.threads w0 := by
    intro w0
    by_cases hw0 : w0 = w
    · subst w0
      rw [cstep_threads_active, hstep]
    · exact cstep_threads_passive w w0 st hw0
  have hdebitOf : ∀ w0, debitOf sc (cstep w st) w0 = debitOf sc st w0 := by
    intro w0
    unfold debitOf
    rw [hth w0]
  refine ⟨by rw [hdb2]; exact hqr, by rw [hdb2]; exact hsqr,
    ⟨h0, by rw [hdb2]; exact hh0, hid0, hst0,
      by rw [hdebitOf true, hdebitOf false]; exact hb0⟩,
    ⟨s0, by rw [hdb2]; exact hs0, hsid0, hss0⟩,
    fun w0 => by rw [hth w0]; exact hreqs w0,
    fun w0 hp => by rw [hth w0] at hp ⊢; exact hhloc w0 hp,
    fun w0 hp => by rw [hth w0] at hp ⊢; exact hsloc w0 hp,
    by rw [hdb2, hth true, hth false]; exact hlockIff,
    by rw [hth true, hth false]; exact hmutex,
    fun w0 hp => by
      rw [hth w0] at hp ⊢
      rw [hdebitOf (!w0)]
      exact hded w0 hp,
    fun w0 => by rw [hth w0]; exact hresIff w0,
    fun w0 e he => by rw [hth w0] at he; exact herr w0 e he,
    fun w0 hl => by
      rw [hth w0] at hl
      rw [hth (!w0)]
      exact hlockedP w0 hl,
    fun w0 hl => by
      rw [hth w0] at hl
      rw [hth (!w0)]
      exact hinsufP w0 hl,
    by rw [hth true, hth false]; exact hnotBoth⟩

/-- The invariant is preserved by every step of either call. -/
theorem twoCallInv_step (sc : Scenario) (hsc : sc.amountsOk) (st : CState)
    (hinv : TwoCallInv sc st) (w : Bool) : TwoCallInv sc (cstep w st) := by
  cases hpc : (st.threads w).pc with
  | validateHomeless => exact step_inv_validateHomeless sc st hinv w hpc
  | validateStore => exact step_inv_validateStore sc st hinv w hpc
  | acquireLock => exact step_inv_acquireLock sc st hinv w hpc
  | reread => exact step_inv_reread sc hsc st hinv w hpc
  | deduct => exact step_inv_deduct sc hsc st hinv w hpc
  | credit => exact step_inv_credit sc st hinv w hpc
  | writeTx => exact step_inv_writeTx sc st hinv w hpc
  | unlock => exact step_inv_unlock sc st hinv w hpc
  | done => exact step_inv_done sc st hinv w hpc

/-- The invariant holds after any schedule. -/
theorem twoCallInv_run (sc : Scenario) (hsc : sc.amountsOk) (st : CState)
    (hinv : TwoCallInv sc st) (sched : List Bool) :
    TwoCallInv sc (crun sched st) := by
  induction sched generalizing st with
  | nil => exact hinv
  | cons w tl ih => exact ih (cstep w st) (twoCallInv_step sc hsc st hinv w)

/-- C2 (amended): for two concurrent `create_transaction` calls against the
same beneficiary whose amounts would each individually succeed but jointly
overdraw the balance, under EVERY interleaving of their Redis operations:
the two calls never both succeed, the persisted balance is never negative,
and when both calls have finished exactly one holds a Transaction and the
other holds either a `TransactionLocked` or an `InsufficientBalance` failure
(which of the two depends on the interleaving — `TransactionLocked` is
possible, so the claim's "fails with InsufficientBalance" is too strong). -/
theorem transaction_mutual_exclusion (sc : Scenario) (db0 : DB)
    (ta tb : Nat) (sched : List Bool)
    (hsc : sc.amountsOk) (hdb : sc.InitDB db0) :
    ¬(isOkResult ((crun sched (sc.init db0 ta tb)).threads true).result = true ∧
      isOkResult ((crun sched (sc.init db0 ta tb)).threads false).result = true) ∧
    (∃ h1, (crun sched (sc.init db0 ta tb)).db.homeless sc.hid = some h1 ∧
      0 ≤ h1.balance) ∧
    (((crun sched (sc.init db0 ta tb)).threads true).pc = PC.done →
      ((crun sched (sc.init db0 ta tb)).threads false).pc = PC.done →
      ∃ w, isOkResult ((crun sched (sc.init db0 ta tb)).threads w).result = true ∧
        ∃ e, ((crun sched (sc.init db0 ta tb)).threads (!w)).result =
          some (Except.error e) ∧ isLockedOrInsufficient e = true) := by
  set fin := crun sched (sc.init db0 ta tb) with hfin
  have hinv := twoCallInv_run sc hsc (sc.init db0 ta tb)
    (twoCallInv_init sc db0 ta tb hdb) sched
  rw [← hfin] at hinv
  obtain ⟨hqr, hsqr, ⟨h1, hh1, hid1, hst1, hb1⟩, _, hreqs, hhloc, hsloc,
    hlockIff, hmutex, hded, hresIff, herr, hlockedP, hinsufP, hnotBoth⟩ := hinv
  obtain ⟨hpos, hle, hjoint⟩ := hsc
  refine ⟨?_, ?_, ?_⟩
  · rintro ⟨hok1, hok2⟩
    have hd1 : debited (fin.threads true) = true := by simp [debited, hok1]
    have hd2 : debited (fin.threads false) = true := by simp [debited, hok2]
    exact hnotBoth ⟨hd1, hd2⟩
  · refine ⟨h1, hh1, ?_⟩
    by_cases hd1 : debited (fin.threads true) = true <;>
      by_cases hd2 : debited (fin.threads false) = true
    · exact absurd ⟨hd1, hd2⟩ hnotBoth
    · have e1 : debitOf sc fin true = sc.amt true := by simp [debitOf, hd1]
      have e2 : debitOf sc fin false = 0 := by simp [debitOf, hd2]
      have := hle true
      omega
    · have e1 : debitOf sc fin true = 0 := by simp [debitOf, hd1]
      have e2 : debitOf sc fin false = sc.amt false := by simp [debitOf, hd2]
      have := hle false
      omega
    · have e1 : debitOf sc fin true = 0 := by simp [debitOf, hd1]
      have e2 : debitOf sc fin false = 0 := by simp [debitOf, hd2]
      have h3 := hle true
      have h4 := hpos true
      omega
  · intro hdone1 hdone2
    have hs1 : (fin.threads true).result ≠ none := (hresIff true).2 (Or.inr hdone1)
    have hs2 : (fin.threads false).result ≠ none := (hresIff false).2 (Or.inr hdone2)
    rcases hr1 : (fin.threads true).result with _ | x1
    · exact absurd hr1 hs1
    rcases x1 with e1 | tx1
    · have hcl := herr true e1 hr1
      have hdF : debited (fin.threads false) = true := by
        by_cases hL : isLockedResult (fin.threads true).result = true
        · have hp := hlockedP true hL
          simp only [Bool.not_true] at hp
          rcases hp with h | h | h
          · rw [hdone2] at h
            simp at h
          · rw [hdone2] at h
            simp at h
          · exact h
        · have hI : isInsufResult (fin.threads true).result = true := by
            rw [hr1]
            rw [hr1] at hL
            cases e1 with
            | attributeError => simp [isLockedOrInsufficient] at hcl
            | txError te =>
              cases te with
              | transactionLocked i => simp [isLockedResult] at hL
              | insufficientBalance a b => rfl
              | homelessNotFound q => simp [isLockedOrInsufficient] at hcl
              | storeNotFound q => simp [isLockedOrInsufficient] at hcl
              | homelessInactive i => simp [isLockedOrInsufficient] at hcl
              | storeInactive i => simp [isLockedOrInsufficient] at hcl
              | productInactive i => simp [isLockedOrInsufficient] at hcl
          have hp := hinsufP true hI
          simpa [Bool.not_true] using hp
      have hok2 : isOkResult (fin.threads false).result = true := by
        rcases hr2 : (fin.threads false).result with _ | x2
        · exact absurd hr2 hs2
        rcases x2 with e2 | tx2
        · have hdf := debited_false_of_error (fin.threads false) e2 hr2
            (Or.inr hdone2)
          rw [hdF] at hdf
          cases hdf
        · simp [isOkResult, hr2]
      exact ⟨false, hok2, ⟨e1, by simpa [Bool.not_false] using hr1, hcl⟩⟩
    · have hok1 : isOkResult (fin.threads true).result = true := by
        simp [isOkResult, hr1]
      rcases hr2 : (fin.threads false).result with _ | x2
      · exact absurd hr2 hs2
      rcases x2 with e2 | tx2
      · exact ⟨true, hok1,
          ⟨e2, by simpa [Bool.not_true] using hr2, herr false e2 hr2⟩⟩
      · have hd1 : debited (fin.threads true) = true := by
          simp [debited, isOkResult, hr1]
        have hd2 : debited (fin.threads false) = true := by
          simp [debited, isOkResult, hr2]
        exact absurd ⟨hd1, hd2⟩ hnotBoth

/-- The concrete C2 scenario: scenario F of the spec — balance 500, both
calls redeem 300. -/
def scThree : Scenario where
  hid := 1
  sid := 2
  qrH := "HL_AAAA11112222"
  qrS := "ST_BBBB33334444"
  pname := "Lunch Box"
  B := 500
  amt := fun _ => 300

/-- The interleaving in which call `false` attempts `acquire_lock` while
call `true` holds the lock. -/
def lockRaceSched : List Bool :=
  [true, true, true, false, false, false, true, true, true, true, true]

/-- Counterexample to C2 as stated: a complete interleaving of the two
calls (individually affordable amounts 300 + 300 over balance 500) in which
exactly one call succeeds and the other fails with `TransactionLocked` —
not with `InsufficientBalance` as the claim requires. -/
theorem transaction_locked_counterexample :
    ((crun lockRaceSched (scThree.init (testDB 500) 21 22)).threads true).pc =
      PC.done ∧
    ((crun lockRaceSched (scThree.init (testDB 500) 21 22)).threads false).pc =
      PC.done ∧
    isOkResult ((crun lockRaceSched (scThree.init (testDB 500) 21
      22)).threads true).result = true ∧
    ((crun lockRaceSched (scThree.init (testDB 500) 21 22)).threads
      false).result = some (Except.error (PyError.txError
        (TxError.transactionLocked 1))) ∧
    isInsufResult ((crun lockRaceSched (scThree.init (testDB 500) 21
      22)).threads false).result = false := by
  refine ⟨by decide, by decide, by decide, by decide, by decide⟩

/-- Witness for the amended C2 theorem at the concrete scenario F and the
lock-race interleaving. -/
theorem transaction_mutual_exclusion_witness :
    ¬(isOkResult ((crun lockRaceSched (scThree.init (testDB 500) 21
        22)).threads true).result = true ∧
      isOkResult ((crun lockRaceSched (scThree.init (testDB 500) 21
        22)).threads false).result = true) ∧
    (∃ h1, (crun lockRaceSched (scThree.init (testDB 500) 21
        22)).db.homeless scThree.hid = some h1 ∧ 0 ≤ h1.balance) ∧
    (((crun lockRaceSched (scThree.init (testDB 500) 21 22)).threads
        true).pc = PC.done →
      ((crun lockRaceSched (scThree.init (testDB 500) 21 22)).threads
        false).pc = PC.done →
      ∃ w, isOkResult ((crun lockRaceSched (scThree.init (testDB 500) 21
          22)).threads w).result = true ∧
        ∃ e, ((crun lockRaceSched (scThree.init (testDB 500) 21
            22)).threads (!w)).result = some (Except.error e) ∧
          isLockedOrInsufficient e = true) :=
  transaction_mutual_exclusion scThree (testDB 500) 21 22 lockRaceSched
    (by refine ⟨?_, ?_, by decide⟩ <;> intro w <;> cases w <;> decide)
    ⟨by decide, ⟨sampleHomeless 500, by decide, rfl, rfl, rfl⟩, by decide,
      ⟨sampleStore, by decide, rfl, rfl⟩, rfl⟩
